import Mathlib

/-!
# Verification of the coroner ingestion-and-analysis pipeline

A shallow embedding of the core of the `coroner` patient-safety-monitor
repository: the record lifecycle (`Finding`/`Analysis`/`Post` statuses and the
repository operations over them), the scraper scheduler's persistence step,
the UK-PFD scrape control loop, the LLM gateway retry loop, the JSON-recovery
parser of the analysis pipeline, the four-stage pipeline orchestration, the
two batch-processor passes, and the external-id generator (including its MD5
hash).  Machine floats of the Python source are modelled as rationals; the
only float values the verified claims mention (0.0, and values passed through
unchanged) are exactly representable, so nothing is lost.  Timestamps
(`func.now()` / `datetime.utcnow()`) are modelled by an explicit `now : Nat`
parameter or omitted where no claim mentions them.
-/

namespace Coroner

/-! ## Data model (src/database/models.py) -/

/-- `FindingStatus` from models.py: processing status of a finding. -/
inductive FindingStatus where
  | NEW
  | CLASSIFIED
  | ANALYSED
  | PUBLISHED
  | EXCLUDED
deriving DecidableEq, Repr

/-- `PostStatus` from models.py: status of a blog post. -/
inductive PostStatus where
  | DRAFT
  | PENDING_REVIEW
  | APPROVED
  | PUBLISHED
  | REJECTED
deriving DecidableEq, Repr

/-- A `Post` row: the fields `PostRepository.approve/reject/publish` touch.
Timestamps are `Option Nat` (set to the supplied `now`). -/
structure Post where
  status : PostStatus
  reviewed_by : Option String := none
  reviewed_at : Option Nat := none
  reviewer_notes : Option String := none
  published_at : Option Nat := none
deriving DecidableEq, Repr

/-! ## PostRepository (src/database/repository.py 518-601)

Each operation takes the looked-up post (`none` when `get_by_id` found
nothing) and returns the updated post, `none` meaning "returns None and the
row is left unchanged". -/

/-- `PostRepository.approve`: sets reviewer fields; with `publish_now` it
moves the post straight to PUBLISHED, otherwise to APPROVED. -/
def PostRepository.approve (post : Option Post) (reviewed_by : String)
    (publish_now : Bool) (now : Nat) : Option Post :=
  match post with
  | none => none
  | some p =>
    let p := { p with reviewed_by := some reviewed_by, reviewed_at := some now }
    if publish_now then
      some { p with status := PostStatus.PUBLISHED, published_at := some now }
    else
      some { p with status := PostStatus.APPROVED }

/-- `PostRepository.reject`: moves the post to REJECTED with reviewer data. -/
def PostRepository.reject (post : Option Post) (reviewed_by : String)
    (reason : Option String) (now : Nat) : Option Post :=
  match post with
  | none => none
  | some p =>
    some { p with status := PostStatus.REJECTED, reviewed_by := some reviewed_by,
                  reviewed_at := some now, reviewer_notes := reason }

/-- `PostRepository.publish`: `if not post or post.status not in
(PostStatus.APPROVED, PostStatus.DRAFT): return None`, else set PUBLISHED and
the publication timestamp. -/
def PostRepository.publish (post : Option Post) (now : Nat) : Option Post :=
  match post with
  | none => none
  | some p =>
    if p.status = PostStatus.APPROVED ∨ p.status = PostStatus.DRAFT then
      some { p with status := PostStatus.PUBLISHED, published_at := some now }
    else
      none

/-! ## Finding rows and FindingRepository (src/database/repository.py 182-346) -/

/-- A `Finding` row with the fields the scheduler and the batch passes read
or write. -/
structure Finding where
  id : Nat
  source_id : Nat
  external_id : String
  title : String := ""
  source_url : String := ""
  status : FindingStatus := FindingStatus.NEW
  is_healthcare : Option Bool := none
  healthcare_confidence : Option ℚ := none
  content_text : Option String := none
  content_html : Option String := none
  pdf_url : Option String := none
  categories : List String := []
deriving DecidableEq, Repr

/-- `FindingRepository.exists`: count of rows matching
`(source_id, external_id)` is positive. -/
def findingExists (db : List Finding) (source_id : Nat) (external_id : String) : Bool :=
  db.any fun f => f.source_id == source_id && f.external_id == external_id

/-- `FindingRepository.get_pending_classification`: findings with
`status == NEW` and `is_healthcare IS NULL`, in creation order, up to `limit`. -/
def getPendingClassification (db : List Finding) (limit : Option Nat) : List Finding :=
  let pending := db.filter fun f =>
    f.status == FindingStatus.NEW && f.is_healthcare == none
  match limit with
  | some n => pending.take n
  | none => pending

/-- `FindingRepository.get_pending_analysis`: findings with
`status == CLASSIFIED` and `is_healthcare == True`, up to `limit`. -/
def getPendingAnalysis (db : List Finding) (limit : Option Nat) : List Finding :=
  let pending := db.filter fun f =>
    f.status == FindingStatus.CLASSIFIED && f.is_healthcare == some true
  match limit with
  | some n => pending.take n
  | none => pending

/-- The field assignment of `FindingRepository.update_classification` on
the fetched row. -/
def classifyRow (is_healthcare : Bool) (confidence : ℚ) (f : Finding) : Finding :=
  { f with is_healthcare := some is_healthcare,
           healthcare_confidence := some confidence,
           status := FindingStatus.CLASSIFIED }

/-- `FindingRepository.update_classification`: on the row with the given
primary key, set `is_healthcare`, `healthcare_confidence` and move the status
to CLASSIFIED. -/
def updateClassification (db : List Finding) (finding_id : Nat)
    (is_healthcare : Bool) (confidence : ℚ) : List Finding :=
  db.map fun f =>
    if f.id == finding_id then classifyRow is_healthcare confidence f else f

/-- The status assignment `finding.status = FindingStatus.ANALYSED` of the
analysis pass on the fetched row. -/
def analyseRow (f : Finding) : Finding := { f with status := FindingStatus.ANALYSED }

/-- `finding.status = FindingStatus.ANALYSED` in the analysis pass: direct
status update on the row with the given primary key. -/
def setAnalysed (db : List Finding) (finding_id : Nat) : List Finding :=
  db.map fun f => if f.id == finding_id then analyseRow f else f

/-! ## Scraped candidates and the scheduler's save step
(src/scrapers/base.py 39-103, src/scrapers/scheduler.py 238-306) -/

/-- `ScrapedFinding` from base.py: the intermediate format between scraping
and database storage. -/
structure ScrapedFinding where
  external_id : String
  title : String := ""
  source_url : String := ""
  deceased_name : Option String := none
  coroner_name : Option String := none
  pdf_url : Option String := none
  content_text : Option String := none
  content_html : Option String := none
  categories : List String := []
deriving DecidableEq, Repr

/-- `ScrapeResult` from base.py: findings plus statistics and errors. -/
structure ScrapeResult where
  findings : List ScrapedFinding := []
  pages_scraped : Nat := 0
  new_findings : Nat := 0
  duplicate_findings : Nat := 0
  failed_pages : Nat := 0
  errors : List String := []
  warnings : List String := []
deriving DecidableEq, Repr

/-- The row `FindingRepository.create` builds from a scraped candidate in
`_save_scrape_results` (status NEW). The fresh primary key is supplied. -/
def scrapedToFinding (id source_id : Nat) (s : ScrapedFinding) : Finding :=
  { id := id, source_id := source_id, external_id := s.external_id,
    title := s.title, source_url := s.source_url, status := FindingStatus.NEW,
    content_text := s.content_text, content_html := s.content_html,
    pdf_url := s.pdf_url, categories := s.categories }

/-- Accumulated state of `ScraperScheduler._save_scrape_results`. -/
structure SaveOutcome where
  db : List Finding
  nextId : Nat
  newCount : Nat
  dupCount : Nat
deriving DecidableEq, Repr

/-- One iteration of the loop in `_save_scrape_results`: an existing
`(source_id, external_id)` is counted as a duplicate and skipped, otherwise a
new NEW finding is created (visible to later duplicate checks, as after
`session.flush`). -/
def saveStep (source_id : Nat) (acc : SaveOutcome) (s : ScrapedFinding) : SaveOutcome :=
  if findingExists acc.db source_id s.external_id then
    { acc with dupCount := acc.dupCount + 1 }
  else
    { acc with db := acc.db ++ [scrapedToFinding acc.nextId source_id s],
               nextId := acc.nextId + 1, newCount := acc.newCount + 1 }

/-- `ScraperScheduler._save_scrape_results`: loop over all scraped findings,
deduplicating against the store. -/
def saveScrapeResults (db : List Finding) (nextId source_id : Nat)
    (findings : List ScrapedFinding) : SaveOutcome :=
  findings.foldl (saveStep source_id)
    { db := db, nextId := nextId, newCount := 0, dupCount := 0 }

/-! ## JSON values and `json.loads`

The analysis pipeline parses LLM responses with Python's `json` module
(strict mode, which also accepts the non-finite literals `NaN`, `Infinity`
and `-Infinity`).  JSON numbers are modelled as rationals. -/

/-- A parsed JSON value (including Python `json`'s non-finite literals). -/
inductive Json where
  | null
  | bool (b : Bool)
  | num (q : ℚ)
  | nan
  | inf (neg : Bool)
  | str (s : String)
  | arr (elems : List Json)
  | obj (fields : List (String × Json))

/-- JSON whitespace (space, tab, newline, carriage return). -/
def isJsonWs (c : Char) : Bool :=
  c == ' ' || c == Char.ofNat 9 || c == Char.ofNat 10 || c == Char.ofNat 13

/-- Drop leading JSON whitespace. -/
def skipWs : List Char → List Char
  | [] => []
  | c :: cs => if isJsonWs c then skipWs cs else c :: cs

/-- Value of a hexadecimal digit. -/
def hexVal (c : Char) : Option Nat :=
  if '0' ≤ c ∧ c ≤ '9' then some (c.toNat - 48)
  else if 'a' ≤ c ∧ c ≤ 'f' then some (c.toNat - 87)
  else if 'A' ≤ c ∧ c ≤ 'F' then some (c.toNat - 55)
  else none

/-- Parse the body of a JSON string (opening quote already consumed),
handling the escape sequences of the JSON grammar.  A `\uXXXX` escape is
mapped through `Char.ofNat` (codepoints that are not valid Lean `Char`s,
i.e. lone surrogates, collapse to the null character).  Unescaped control
characters are rejected, as in Python's strict mode. -/
def parseStrChars : Nat → List Char → List Char → Option (List Char × List Char)
  | 0, _, _ => none
  | fuel + 1, acc, cs =>
    match cs with
    | [] => none
    | c :: rest =>
      if c = '"' then some (acc.reverse, rest)
      else if c = '\\' then
        match rest with
        | [] => none
        | e :: rest2 =>
          if e = '"' then parseStrChars fuel ('"' :: acc) rest2
          else if e = '\\' then parseStrChars fuel ('\\' :: acc) rest2
          else if e = '/' then parseStrChars fuel ('/' :: acc) rest2
          else if e = 'b' then parseStrChars fuel (Char.ofNat 8 :: acc) rest2
          else if e = 'f' then parseStrChars fuel (Char.ofNat 12 :: acc) rest2
          else if e = 'n' then parseStrChars fuel (Char.ofNat 10 :: acc) rest2
          else if e = 'r' then parseStrChars fuel (Char.ofNat 13 :: acc) rest2
          else if e = 't' then parseStrChars fuel (Char.ofNat 9 :: acc) rest2
          else if e = 'u' then
            match rest2 with
            | h1 :: h2 :: h3 :: h4 :: rest3 =>
              match hexVal h1, hexVal h2, hexVal h3, hexVal h4 with
              | some v1, some v2, some v3, some v4 =>
                parseStrChars fuel
                  (Char.ofNat (((v1 * 16 + v2) * 16 + v3) * 16 + v4) :: acc) rest3
              | _, _, _, _ => none
            | _ => none
          else none
      else if c.toNat < 32 then none
      else parseStrChars fuel (c :: acc) rest

/-- Take a maximal run of decimal digits, returning their value, their count
and the rest. -/
def takeDigits : List Char → Nat → Nat → Nat × Nat × List Char
  | [], v, n => (v, n, [])
  | c :: cs, v, n =>
    if c.isDigit then takeDigits cs (v * 10 + (c.toNat - 48)) (n + 1)
    else (v, n, c :: cs)

/-- Parse a JSON number per the JSON grammar
`-? (0 | [1-9][0-9]*) (. [0-9]+)? ([eE] [+-]? [0-9]+)?`. -/
def parseNumber (cs : List Char) : Option (ℚ × List Char) :=
  let (neg, cs1) := match cs with
    | '-' :: t => (true, t)
    | _ => (false, cs)
  match cs1 with
  | [] => none
  | c :: t =>
    if ¬ c.isDigit then none
    else
      -- leading zero admits no further integer digits
      let (ipart, rest) :=
        if c = '0' then ((0 : Nat), t)
        else
          let (v, _, r) := takeDigits (c :: t) 0 0
          (v, r)
      let (fracV, fracN, rest2) :=
        match rest with
        | '.' :: t2 =>
          let (v, n, r) := takeDigits t2 0 0
          (v, n, r)
        | _ => (0, 0, rest)
      -- a dot must be followed by at least one digit
      let dotNoDigit : Bool := match rest with
        | '.' :: _ => fracN == 0
        | _ => false
      if dotNoDigit then none
      else
        let (expOk, expNeg, expV, rest3) :=
          match rest2 with
          | c2 :: t3 =>
            if c2 = 'e' ∨ c2 = 'E' then
              let (esign, t4) := match t3 with
                | '+' :: u => (false, u)
                | '-' :: u => (true, u)
                | _ => (false, t3)
              let (v, n, r) := takeDigits t4 0 0
              ((n != 0 : Bool), esign, v, if n = 0 then rest2 else r)
            else (true, false, 0, rest2)
          | [] => (true, false, 0, rest2)
        if expOk then
          let mantissa : ℚ := (ipart * 10 ^ fracN + fracV : ℕ)
          let scaled : ℚ := mantissa / (10 : ℚ) ^ fracN *
            ((10 : ℚ) ^ (if expNeg then -(expV : ℤ) else (expV : ℤ)))
          some (if neg then -scaled else scaled, rest3)
        else none

/-- Parsing modes for the recursive-descent JSON parser: a value, the
members of an object (after `{` or a `,`), or the elements of an array. -/
inductive JMode where
  | value
  | members (acc : List (String × Json))
  | elements (acc : List Json)

/-- Fueled recursive-descent parser for Python `json.loads` documents
(strict JSON plus `NaN` / `Infinity` / `-Infinity`).  Returns the parsed
value and the unconsumed input. -/
def parseJ : Nat → JMode → List Char → Option (Json × List Char)
  | 0, _, _ => none
  | fuel + 1, JMode.value, cs =>
    match skipWs cs with
    | [] => none
    | c :: t =>
      if c = Char.ofNat 123 then
        match skipWs t with
        | c2 :: t2 =>
          if c2 = Char.ofNat 125 then some (Json.obj [], t2)
          else parseJ fuel (JMode.members []) (c2 :: t2)
        | [] => none
      else if c = '[' then
        match skipWs t with
        | c2 :: t2 =>
          if c2 = ']' then some (Json.arr [], t2)
          else parseJ fuel (JMode.elements []) (c2 :: t2)
        | [] => none
      else if c = '"' then
        match parseStrChars (t.length + 1) [] t with
        | some (s, rest) => some (Json.str (String.mk s), rest)
        | none => none
      else if List.isPrefixOf "true".data (c :: t) then
        some (Json.bool true, (c :: t).drop 4)
      else if List.isPrefixOf "false".data (c :: t) then
        some (Json.bool false, (c :: t).drop 5)
      else if List.isPrefixOf "null".data (c :: t) then
        some (Json.null, (c :: t).drop 4)
      else if List.isPrefixOf "NaN".data (c :: t) then
        some (Json.nan, (c :: t).drop 3)
      else if List.isPrefixOf "Infinity".data (c :: t) then
        some (Json.inf false, (c :: t).drop 8)
      else if List.isPrefixOf "-Infinity".data (c :: t) then
        some (Json.inf true, (c :: t).drop 9)
      else
        match parseNumber (c :: t) with
        | some (q, rest) => some (Json.num q, rest)
        | none => none
  | fuel + 1, JMode.members acc, cs =>
    match skipWs cs with
    | c :: t =>
      if c = '"' then
        match parseStrChars (t.length + 1) [] t with
        | some (k, rest) =>
          match skipWs rest with
          | ':' :: rest2 =>
            match parseJ fuel JMode.value rest2 with
            | some (v, rest3) =>
              let acc2 := acc ++ [(String.mk k, v)]
              match skipWs rest3 with
              | ',' :: rest4 => parseJ fuel (JMode.members acc2) rest4
              | c3 :: rest4 =>
                if c3 = Char.ofNat 125 then some (Json.obj acc2, rest4) else none
              | [] => none
            | none => none
          | _ => none
        | none => none
      else none
    | [] => none
  | fuel + 1, JMode.elements acc, cs =>
    match parseJ fuel JMode.value cs with
    | some (v, rest) =>
      let acc2 := acc ++ [v]
      match skipWs rest with
      | ',' :: rest2 => parseJ fuel (JMode.elements acc2) rest2
      | ']' :: rest2 => some (Json.arr acc2, rest2)
      | _ => none
    | none => none

/-- `json.loads`: parse one document and require only whitespace after it. -/
def jsonLoads (s : String) : Option Json :=
  match parseJ (2 * s.length + 4) JMode.value s.data with
  | some (j, rest) => if skipWs rest = [] then some j else none
  | none => none

/-- Python `dict.get(key, default)` over an object built from parsed
members (later duplicate keys override earlier ones). -/
def dictGet (kvs : List (String × Json)) (key : String) (dflt : Json) : Json :=
  match kvs.reverse.find? (fun kv => kv.1 == key) with
  | some kv => kv.2
  | none => dflt

/-! ## JSON recovery (`AnalysisPipeline._parse_json`, analyser.py 594-619)

The pipeline tries, in order: a direct `json.loads`; the first fenced
code block (regex three-backticks, optional `json` tag, lazy body,
three-backticks); the region from the first `\x7b` to the last `\x7d`.
On total failure it returns the empty object. -/

/-- The backtick character. -/
def backtick : Char := Char.ofNat 96

/-- Python regex `\s` over ASCII (space, tab, newline, return, formfeed,
vertical tab); non-ASCII unicode whitespace is not modelled, none of the
fence delimiters involved are unicode. -/
def isPyWs (c : Char) : Bool :=
  c == ' ' || c == Char.ofNat 9 || c == Char.ofNat 10 || c == Char.ofNat 11 ||
  c == Char.ofNat 12 || c == Char.ofNat 13

/-- Whether the input starts with three backticks. -/
def isTicks3 (cs : List Char) : Bool :=
  match cs with
  | a :: b :: c :: _ => a == backtick && b == backtick && c == backtick
  | _ => false

/-- Suffix immediately after the first occurrence of three backticks. -/
def afterTicks3 : List Char → Option (List Char)
  | [] => none
  | c :: cs => if isTicks3 (c :: cs) then some (cs.drop 2) else afterTicks3 cs

/-- The lazy group `([\s\S]*?)` of the fence regex: the shortest span such
that what follows is whitespace directly followed by a closing fence. -/
def groupUpToClose : Nat → List Char → List Char → Option (List Char)
  | 0, _, _ => none
  | fuel + 1, acc, cs =>
    if isTicks3 (cs.dropWhile isPyWs) then some acc.reverse
    else
      match cs with
      | [] => none
      | c :: rest => groupUpToClose fuel (c :: acc) rest

/-- Body of a fenced block: after the opening fence, an optional `json` tag
and leading whitespace are consumed, then the lazy group runs to the
closing fence. -/
def fencedBody (cs : List Char) : Option (List Char) :=
  let cs1 := if List.isPrefixOf "json".data cs then cs.drop 4 else cs
  let cs2 := cs1.dropWhile isPyWs
  groupUpToClose (cs2.length + 1) [] cs2

/-- `re.search` for the fence pattern: try each opening fence left to right
(a failed opening fence means no closing fence exists at all, so trying
later candidates is exhaustive). -/
def fencedSearch : Nat → List Char → Option (List Char)
  | 0, _ => none
  | fuel + 1, cs =>
    match afterTicks3 cs with
    | none => none
    | some rest =>
      match fencedBody rest with
      | some g => some g
      | none => fencedSearch fuel rest

/-- Group 1 of `re.search` with pattern backtick-fence, optional json tag,
lazy body, closing fence. -/
def extractFenced (s : String) : Option String :=
  (fencedSearch (s.length + 1) s.data).map String.mk

/-- `re.search` with the greedy brace pattern: from the first opening brace
to the last closing brace, when the latter comes after the former. -/
def extractBraces (s : String) : Option String :=
  let cs := s.data
  match cs.findIdx? (fun c => c == Char.ofNat 123) with
  | none => none
  | some i =>
    match cs.reverse.findIdx? (fun c => c == Char.ofNat 125) with
    | none => none
    | some jr =>
      let j := cs.length - 1 - jr
      if i < j then some (String.mk ((cs.drop i).take (j + 1 - i))) else none

/-- `AnalysisPipeline._parse_json`: direct parse, then fenced block, then
embedded brace region, then the empty object. -/
def AnalysisPipeline.parse_json (content : String) : Json :=
  match jsonLoads content with
  | some j => j
  | none =>
    match (extractFenced content).bind jsonLoads with
    | some j => j
    | none =>
      match (extractBraces content).bind jsonLoads with
      | some j => j
      | none => Json.obj []

/-! ## Python value coercions used by the stage constructors -/

/-- A Python float value: finite (exact rational model), NaN, or infinity. -/
inductive PyNum where
  | finite (q : ℚ)
  | nan
  | inf (neg : Bool)
deriving DecidableEq, Repr

/-- Strip leading and trailing Python whitespace. -/
def pyStrip (cs : List Char) : List Char :=
  ((cs.dropWhile isPyWs).reverse.dropWhile isPyWs).reverse

/-- Python `float(str)` grammar: optional sign; `inf`/`infinity`/`nan`
case-insensitively; or digits with an optional dot on either side and an
optional exponent.  (Digit-group underscores are not modelled; no claim
exercises them.) -/
def pyFloatOfChars (cs0 : List Char) : Option PyNum :=
  let cs := pyStrip cs0
  let (neg, cs1) := match cs with
    | '-' :: t => (true, t)
    | '+' :: t => (false, t)
    | _ => (false, cs)
  let low := cs1.map Char.toLower
  if low = "inf".data ∨ low = "infinity".data then some (PyNum.inf neg)
  else if low = "nan".data then some PyNum.nan
  else
    let (iv, ic, r1) := takeDigits cs1 0 0
    let (fv, fc, r2) := match r1 with
      | '.' :: t => takeDigits t 0 0
      | _ => (0, 0, r1)
    if ic = 0 ∧ fc = 0 then none
    else
      let (expOk, expNeg, expV, r3) :=
        match r2 with
        | c2 :: t3 =>
          if c2 = 'e' ∨ c2 = 'E' then
            let (esign, t4) := match t3 with
              | '+' :: u => (false, u)
              | '-' :: u => (true, u)
              | _ => (false, t3)
            let (v, n, r) := takeDigits t4 0 0
            ((n != 0 : Bool), esign, v, r)
          else (false, false, 0, r2)
        | [] => (true, false, 0, r2)
      if expOk ∧ r3 = [] then
        let mantissa : ℚ := (iv * 10 ^ fc + fv : ℕ)
        let scaled : ℚ := mantissa / (10 : ℚ) ^ fc *
          ((10 : ℚ) ^ (if expNeg then -(expV : ℤ) else (expV : ℤ)))
        some (PyNum.finite (if neg then -scaled else scaled))
      else none

/-- Python `float(x)` on a parsed JSON value: numbers and booleans convert,
strings go through the float grammar, anything else raises `TypeError`. -/
def pyFloat : Json → Except String PyNum
  | Json.num q => Except.ok (PyNum.finite q)
  | Json.bool b => Except.ok (PyNum.finite (if b then 1 else 0))
  | Json.nan => Except.ok PyNum.nan
  | Json.inf n => Except.ok (PyNum.inf n)
  | Json.str s =>
    match pyFloatOfChars s.data with
    | some p => Except.ok p
    | none => Except.error "ValueError: could not convert string to float"
  | _ => Except.error "TypeError: float() argument"

/-- Python truthiness of a parsed JSON value. -/
def pyTruthy : Json → Bool
  | Json.null => false
  | Json.bool b => b
  | Json.num q => q != 0
  | Json.nan => true
  | Json.inf _ => true
  | Json.str s => !s.isEmpty
  | Json.arr xs => !xs.isEmpty
  | Json.obj kvs => !kvs.isEmpty

/-- Python `str(x)` of a parsed JSON value, used only to build default
key-learning strings fed back into prompts; the exact float formatting of
CPython is not reproduced (no claim depends on these strings). -/
def jsonPyStr : Json → String
  | Json.null => "None"
  | Json.bool b => if b then "True" else "False"
  | Json.num q => toString q
  | Json.nan => "nan"
  | Json.inf neg => if neg then "-inf" else "inf"
  | Json.str s => s
  | Json.arr _ => "[...]"
  | Json.obj _ => "\x7b...\x7d"

/-! ## LLM Gateway (src/analysis/llm_client.py) -/

/-- `LLMConfig` from llm_client.py. -/
structure LLMConfig where
  temperature : ℚ := 3 / 10
  max_tokens : Nat := 4096
  timeout_seconds : Nat := 120
  max_retries : Nat := 3
  stop_sequences : List String := []
  json_mode : Bool := false
deriving DecidableEq, Repr

/-- `LLMResponse` from llm_client.py (latency omitted, no claim reads it). -/
structure LLMResponse where
  content : String
  tokens_input : Nat := 0
  tokens_output : Nat := 0
  cost_usd : ℚ := 0
deriving DecidableEq, Repr

/-- `LLMResponse.total_tokens`. -/
def LLMResponse.total_tokens (r : LLMResponse) : Nat :=
  r.tokens_input + r.tokens_output

/-- Round half to even (Python `round`), on an exact rational. -/
def roundHalfEven (q : ℚ) : ℤ :=
  if q - ⌊q⌋ < 1 / 2 then ⌊q⌋
  else if q - ⌊q⌋ > 1 / 2 then ⌊q⌋ + 1
  else if 2 ∣ ⌊q⌋ then ⌊q⌋ else ⌊q⌋ + 1

/-- `BaseLLMClient._calculate_cost`: linear price per 1000 tokens, rounded
to six decimals. -/
def calculateCost (cost_in_per_1k cost_out_per_1k : ℚ)
    (tokens_input tokens_output : Nat) : ℚ :=
  let input_cost := (tokens_input : ℚ) / 1000 * cost_in_per_1k
  let output_cost := (tokens_output : ℚ) / 1000 * cost_out_per_1k
  (roundHalfEven ((input_cost + output_cost) * 10 ^ 6) : ℚ) / 10 ^ 6

/-- Observable trace of one `BaseLLMClient.complete` call: the outcome (the
error is `none` in the degenerate `max_retries = 0` case, where the source
raises the initial `None`), how many API calls were made, and the backoff
sleeps in seconds, in order. -/
structure CompleteTrace where
  result : Except (Option String) LLMResponse
  calls : Nat
  sleeps : List Nat

/-- The retry loop of `BaseLLMClient.complete`.  `callApi` is the combined
`_call_api` + `_parse_response` for a given attempt index, yielding
`(content, input tokens, output tokens)` or the raised error.  On failure
the loop waits `2 ^ attempt` seconds, except after the final attempt. -/
def completeGo (callApi : Nat → Except String (String × Nat × Nat))
    (cin cout : ℚ) : Nat → Nat → Option String → Nat → List Nat → CompleteTrace
  | 0, _, lastError, calls, sleeps => ⟨Except.error lastError, calls, sleeps⟩
  | remaining + 1, attempt, _, calls, sleeps =>
    match callApi attempt with
    | Except.ok (content, tin, tout) =>
      ⟨Except.ok { content := content, tokens_input := tin, tokens_output := tout,
                   cost_usd := calculateCost cin cout tin tout },
       calls + 1, sleeps⟩
    | Except.error e =>
      let sleeps2 := if remaining > 0 then sleeps ++ [2 ^ attempt] else sleeps
      completeGo callApi cin cout remaining (attempt + 1) (some e) (calls + 1) sleeps2

/-- `BaseLLMClient.complete`: `for attempt in range(config.max_retries)`,
then re-raise the last error. -/
def BaseLLMClient.complete (callApi : Nat → Except String (String × Nat × Nat))
    (cin cout : ℚ) (config : LLMConfig) : CompleteTrace :=
  completeGo callApi cin cout config.max_retries 0 none 0 []

/-! ## Analysis pipeline stage results (src/analysis/analyser.py 45-163)

Loosely-typed dataclass fields hold the raw parsed JSON value the Python
code assigns (`data.get(...)`), so they are `Json`-typed here. -/

/-- `ClassificationResult`. -/
structure ClassificationResult where
  is_healthcare : Json
  confidence : PyNum
  reasoning : Json
  tokens_used : Nat := 0
  cost_usd : ℚ := 0

/-- `ExtractionResult`. -/
structure ExtractionResult where
  summary : Json
  incident_date : Json := Json.null
  location : Json := Json.null
  parties_involved : Json := Json.arr []
  sequence_of_events : Json := Json.arr []
  coroner_recommendations : Json := Json.arr []
  healthcare_context : Json := Json.obj []
  tokens_used : Nat := 0
  cost_usd : ℚ := 0

/-- `HumanFactorsResult`. -/
structure HumanFactorsResult where
  individual_factors : Json := Json.arr []
  team_factors : Json := Json.arr []
  task_factors : Json := Json.arr []
  technology_factors : Json := Json.arr []
  environment_factors : Json := Json.arr []
  organisational_factors : Json := Json.arr []
  latent_hazards : Json := Json.arr []
  improvement_opportunities : Json := Json.arr []
  tokens_used : Nat := 0
  cost_usd : ℚ := 0

/-- `HumanFactorsResult.to_dict`: the six SEIPS domains. -/
def HumanFactorsResult.to_dict (hf : HumanFactorsResult) : Json :=
  Json.obj [("individual_factors", hf.individual_factors),
            ("team_factors", hf.team_factors),
            ("task_factors", hf.task_factors),
            ("technology_factors", hf.technology_factors),
            ("environment_factors", hf.environment_factors),
            ("organisational_factors", hf.organisational_factors)]

/-- `BlogPostResult`. -/
structure BlogPostResult where
  title : Json
  content_markdown : Json
  excerpt : Json
  key_learnings : Json
  tags : Json
  tokens_used : Nat := 0
  cost_usd : ℚ := 0

/-- `AnalysisPipelineResult` (timestamps omitted). -/
structure AnalysisPipelineResult where
  classification : Option ClassificationResult := none
  extraction : Option ExtractionResult := none
  human_factors : Option HumanFactorsResult := none
  blog_post : Option BlogPostResult := none
  errors : List String := []

/-- `AnalysisPipelineResult.success`: no errors and a blog post present. -/
def AnalysisPipelineResult.success (r : AnalysisPipelineResult) : Bool :=
  r.errors.isEmpty && r.blog_post.isSome

/-- `AnalysisPipelineResult.total_tokens`: sum over the stages present. -/
def AnalysisPipelineResult.total_tokens (r : AnalysisPipelineResult) : Nat :=
  (match r.classification with | some c => c.tokens_used | none => 0) +
  (match r.extraction with | some e => e.tokens_used | none => 0) +
  (match r.human_factors with | some h => h.tokens_used | none => 0) +
  (match r.blog_post with | some b => b.tokens_used | none => 0)

/-- `AnalysisPipelineResult.total_cost_usd`: sum over the stages present. -/
def AnalysisPipelineResult.total_cost_usd (r : AnalysisPipelineResult) : ℚ :=
  (match r.classification with | some c => c.cost_usd | none => 0) +
  (match r.extraction with | some e => e.cost_usd | none => 0) +
  (match r.human_factors with | some h => h.cost_usd | none => 0) +
  (match r.blog_post with | some b => b.cost_usd | none => 0)

/-! ## Stage constructors (analyser.py 434-592)

Each stage issues one Gateway call and builds its result from the parsed
response; prompt rendering only produces the request text and cannot fail,
so it is not modelled (no claim reads prompts). A raised Python exception
(`AttributeError` on `.get` of a non-dict, `float()` conversion errors) is
an `Except.error`, caught by `analyse`'s `try`. -/

/-- Tail of `AnalysisPipeline._classify`: build a `ClassificationResult`
from a completed Gateway response. -/
def classifyFromResponse (response : LLMResponse) : Except String ClassificationResult :=
  match AnalysisPipeline.parse_json response.content with
  | Json.obj kvs =>
    match pyFloat (dictGet kvs "confidence" (Json.num 0)) with
    | Except.ok conf =>
      Except.ok { is_healthcare := dictGet kvs "is_healthcare" (Json.bool false),
                  confidence := conf,
                  reasoning := dictGet kvs "reasoning" (Json.str ""),
                  tokens_used := response.total_tokens,
                  cost_usd := response.cost_usd }
    | Except.error e => Except.error e
  | _ => Except.error "AttributeError: get"

/-- Tail of `AnalysisPipeline._extract`. -/
def extractFromResponse (response : LLMResponse) : Except String ExtractionResult :=
  match AnalysisPipeline.parse_json response.content with
  | Json.obj kvs =>
    Except.ok { summary := dictGet kvs "summary" (Json.str ""),
                incident_date := dictGet kvs "incident_date" Json.null,
                location := dictGet kvs "location" Json.null,
                parties_involved := dictGet kvs "parties_involved" (Json.arr []),
                sequence_of_events := dictGet kvs "sequence_of_events" (Json.arr []),
                coroner_recommendations := dictGet kvs "coroner_recommendations" (Json.arr []),
                healthcare_context := dictGet kvs "healthcare_context" (Json.obj []),
                tokens_used := response.total_tokens,
                cost_usd := response.cost_usd }
  | _ => Except.error "AttributeError: get"

/-- Tail of `AnalysisPipeline._analyse_human_factors`. -/
def hfFromResponse (response : LLMResponse) : Except String HumanFactorsResult :=
  match AnalysisPipeline.parse_json response.content with
  | Json.obj kvs =>
    Except.ok { individual_factors := dictGet kvs "individual_factors" (Json.arr []),
                team_factors := dictGet kvs "team_factors" (Json.arr []),
                task_factors := dictGet kvs "task_factors" (Json.arr []),
                technology_factors := dictGet kvs "technology_factors" (Json.arr []),
                environment_factors := dictGet kvs "environment_factors" (Json.arr []),
                organisational_factors := dictGet kvs "organisational_factors" (Json.arr []),
                latent_hazards := dictGet kvs "latent_hazards" (Json.arr []),
                improvement_opportunities := dictGet kvs "improvement_opportunities" (Json.arr []),
                tokens_used := response.total_tokens,
                cost_usd := response.cost_usd }
  | _ => Except.error "AttributeError: get"

/-- The key-learnings default list computed in `_generate_blog` from
`improvement_opportunities[:5]`: a dict item contributes its
`recommendation` (or its printed form), anything else its printed form;
slicing a non-sliceable value raises. -/
def keyLearnings (opportunities : Json) : Except String (List Json) :=
  match opportunities with
  | Json.arr xs =>
    Except.ok ((xs.take 5).map fun opp =>
      match opp with
      | Json.obj kvs => dictGet kvs "recommendation" (Json.str (jsonPyStr opp))
      | _ => Json.str (jsonPyStr opp))
  | Json.str s =>
    Except.ok ((s.data.take 5).map fun c => Json.str (String.mk [c]))
  | _ => Except.error "TypeError: unsliceable"

/-- Tail of `AnalysisPipeline._generate_blog`, given the computed default
key learnings. -/
def blogFromResponse (response : LLMResponse) (kl : List Json) :
    Except String BlogPostResult :=
  match AnalysisPipeline.parse_json response.content with
  | Json.obj kvs =>
    Except.ok { title := dictGet kvs "title" (Json.str ""),
                content_markdown := dictGet kvs "content_markdown" (Json.str ""),
                excerpt := dictGet kvs "excerpt" (Json.str ""),
                key_learnings := dictGet kvs "key_learnings" (Json.arr kl),
                tags := dictGet kvs "tags" (Json.arr []),
                tokens_used := response.total_tokens,
                cost_usd := response.cost_usd }
  | _ => Except.error "AttributeError: get"

/-- Python `a or b` for an optional string operand (`None` and the empty
string are falsy). -/
def pyOrStr (a : Option String) (b : String) : String :=
  match a with
  | some s => if s.isEmpty then b else s
  | none => b

/-- Stages 2-4 of `AnalysisPipeline.analyse` starting at Gateway call
index `k`: extraction, human factors, blog generation, each one call; the
first raised error is appended to the result's error list and stops the
sequence.  Returns the result and the total number of Gateway calls made
by the whole pipeline run. -/
def runStages234 (client : Nat → Except String LLMResponse) (k : Nat)
    (res : AnalysisPipelineResult) : AnalysisPipelineResult × Nat :=
  match client k with
  | Except.error e => ({ res with errors := res.errors ++ [e] }, k + 1)
  | Except.ok r1 =>
    match extractFromResponse r1 with
    | Except.error e => ({ res with errors := res.errors ++ [e] }, k + 1)
    | Except.ok ex =>
      let res := { res with extraction := some ex }
      match client (k + 1) with
      | Except.error e => ({ res with errors := res.errors ++ [e] }, k + 2)
      | Except.ok r2 =>
        match hfFromResponse r2 with
        | Except.error e => ({ res with errors := res.errors ++ [e] }, k + 2)
        | Except.ok hf =>
          let res := { res with human_factors := some hf }
          match keyLearnings hf.improvement_opportunities with
          | Except.error e => ({ res with errors := res.errors ++ [e] }, k + 2)
          | Except.ok kl =>
            match client (k + 2) with
            | Except.error e => ({ res with errors := res.errors ++ [e] }, k + 3)
            | Except.ok r3 =>
              match blogFromResponse r3 kl with
              | Except.error e => ({ res with errors := res.errors ++ [e] }, k + 3)
              | Except.ok bp => ({ res with blog_post := some bp }, k + 3)

/-- `AnalysisPipeline.analyse` (analyser.py 354-432): empty content is an
immediate error; otherwise stage 1 classifies (unless skipped) and
short-circuits on a non-healthcare classification; stages 2-4 follow.
`client i` is the Gateway response to the i-th `complete` call of this
run; the second component counts the Gateway calls made. -/
def AnalysisPipeline.analyse (client : Nat → Except String LLMResponse)
    (finding : Finding) (skip_classification : Bool) :
    AnalysisPipelineResult × Nat :=
  let content := pyOrStr finding.content_text (pyOrStr finding.content_html "")
  if content.isEmpty then
    ({ errors := ["No content available for analysis"] }, 0)
  else
    if skip_classification then
      runStages234 client 0 {}
    else
      match client 0 with
      | Except.error e => ({ errors := [e] }, 1)
      | Except.ok r0 =>
        match classifyFromResponse r0 with
        | Except.error e => ({ errors := [e] }, 1)
        | Except.ok c =>
          if !pyTruthy c.is_healthcare then
            ({ classification := some c }, 1)
          else
            runStages234 client 1 { classification := some c }

/-! ## Batch processor (src/analysis/processor.py)

The two passes pull findings in a lifecycle state and process each in a
try/except: a per-record failure is appended to the run's error list and
the loop continues.  The per-record pipeline outcome is supplied as an
oracle indexed by the finding's primary key; for the classification pass
the oracle yields the values `update_classification` persists (or the
raised error), for the analysis pass it yields the whole
`AnalysisPipelineResult` (`AnalysisPipeline.analyse` never raises — it
catches internally — so the oracle is total). -/

/-- The counters and error list of `ProcessingStats` (timestamps omitted). -/
structure ProcessingStats where
  findings_processed : Nat := 0
  findings_classified : Nat := 0
  findings_healthcare : Nat := 0
  findings_non_healthcare : Nat := 0
  analyses_created : Nat := 0
  posts_created : Nat := 0
  total_tokens : Nat := 0
  total_cost_usd : ℚ := 0
  errors : List String := []
deriving DecidableEq, Repr

/-- Outcome of `AnalysisPipeline._classify` for one finding, as consumed by
the classification pass. -/
structure ClassOutcome where
  is_healthcare : Bool
  confidence : ℚ
  tokens_used : Nat := 0
  cost_usd : ℚ := 0
deriving DecidableEq, Repr

/-- One iteration of the loop in
`AnalysisProcessor.process_pending_classification`. -/
def classifyStep (oracle : Nat → Except String ClassOutcome)
    (acc : List Finding × ProcessingStats) (f : Finding) :
    List Finding × ProcessingStats :=
  let (db, stats) := acc
  match oracle f.id with
  | Except.ok oc =>
    let db2 := updateClassification db f.id oc.is_healthcare oc.confidence
    let stats2 := { stats with
      findings_classified := stats.findings_classified + 1,
      total_tokens := stats.total_tokens + oc.tokens_used,
      total_cost_usd := stats.total_cost_usd + oc.cost_usd,
      findings_healthcare := stats.findings_healthcare + (if oc.is_healthcare then 1 else 0),
      findings_non_healthcare :=
        stats.findings_non_healthcare + (if oc.is_healthcare then 0 else 1),
      findings_processed := stats.findings_processed + 1 }
    (db2, stats2)
  | Except.error e =>
    (db, { stats with
      errors := stats.errors ++ ["Classification failed for " ++ toString f.id ++ ": " ++ e],
      findings_processed := stats.findings_processed + 1 })

/-- `AnalysisProcessor.process_pending_classification`. -/
def processPendingClassification (oracle : Nat → Except String ClassOutcome)
    (db : List Finding) (limit : Option Nat) : List Finding × ProcessingStats :=
  (getPendingClassification db limit).foldl (classifyStep oracle) (db, {})

/-- The `Analysis` row persisted by `process_pending_analysis`
(processor.py 229-244): note the `// 2` token split and the pass-through
cost. -/
structure AnalysisRow where
  finding_id : Nat
  llm_provider : String := "claude"
  prompt_version : String := "1.0.0"
  summary : Json
  human_factors : Json
  latent_hazards : Json
  recommendations : Json
  key_learnings : Json
  settings : Json
  specialties : Json
  tokens_input : Nat
  tokens_output : Nat
  cost_usd : ℚ

/-- Python `x.get(key, default)` where `x` is an arbitrary parsed value:
an `AttributeError` unless it is a dict. -/
def jsonAttrGet (j : Json) (key : String) (dflt : Json) : Except String Json :=
  match j with
  | Json.obj kvs => Except.ok (dictGet kvs key dflt)
  | _ => Except.error "AttributeError: get"

/-- The `analysis_repo.create(...)` argument construction in
`process_pending_analysis` (processor.py 229-244). -/
def analysisRowOf (finding_id : Nat) (result : AnalysisPipelineResult) :
    Except String AnalysisRow :=
  match (match result.extraction with
         | some ex => jsonAttrGet ex.healthcare_context "settings" (Json.arr [])
         | none => Except.ok (Json.arr [])),
        (match result.extraction with
         | some ex => jsonAttrGet ex.healthcare_context "specialties" (Json.arr [])
         | none => Except.ok (Json.arr [])) with
  | Except.error e, _ => Except.error e
  | _, Except.error e => Except.error e
  | Except.ok settings, Except.ok specialties => Except.ok
    { finding_id := finding_id,
      summary := (match result.extraction with | some ex => ex.summary | none => Json.str ""),
      human_factors :=
        (match result.human_factors with | some hf => hf.to_dict | none => Json.obj []),
      latent_hazards :=
        (match result.human_factors with | some hf => hf.latent_hazards | none => Json.arr []),
      recommendations :=
        (match result.human_factors with
         | some hf => hf.improvement_opportunities
         | none => Json.arr []),
      key_learnings :=
        (match result.blog_post with | some bp => bp.key_learnings | none => Json.arr []),
      settings := settings,
      specialties := specialties,
      tokens_input := result.total_tokens / 2,
      tokens_output := result.total_tokens / 2,
      cost_usd := result.total_cost_usd }

/-- One iteration of the loop in `AnalysisProcessor.process_pending_analysis`
(processor.py 218-297), in source order. A pipeline failure or an exception
while building the `Analysis` row records an error and leaves the finding
untouched. Once the row is created, `analyses_created` is incremented
(processor.py 246) BEFORE the fallible slug-generation / post-creation
block (processor.py 249-262, reached whenever `blog_post` is present;
`slugify` and the DB insert can raise, so it is modeled by `postOracle`).
If that block raises, the `except` at processor.py 287 also appends an
error: the record is counted both in `analyses_created` and in the error
list, the finding is NOT advanced, and the already-persisted `Analysis` row
remains (the session commit at processor.py 299 still runs). Only on full
success are the post counted, the tokens and cost accumulated, and the
finding advanced to ANALYSED. `findings_processed` increments on every
path. -/
def analysisStep (oracle : Nat → AnalysisPipelineResult)
    (postOracle : Nat → Except String Unit)
    (acc : List Finding × ProcessingStats × List AnalysisRow) (f : Finding) :
    List Finding × ProcessingStats × List AnalysisRow :=
  let (db, stats, rows) := acc
  let result := oracle f.id
  if result.success then
    match analysisRowOf f.id result with
    | Except.ok row =>
      match (if result.blog_post.isSome then postOracle f.id else Except.ok ()) with
      | Except.ok _ =>
        let stats2 := { stats with
          analyses_created := stats.analyses_created + 1,
          posts_created := stats.posts_created + (if result.blog_post.isSome then 1 else 0),
          total_tokens := stats.total_tokens + result.total_tokens,
          total_cost_usd := stats.total_cost_usd + result.total_cost_usd,
          findings_processed := stats.findings_processed + 1 }
        (setAnalysed db f.id, stats2, rows ++ [row])
      | Except.error e =>
        (db, { stats with
          analyses_created := stats.analyses_created + 1,
          errors := stats.errors ++ ["Analysis failed for " ++ toString f.id ++ ": " ++ e],
          findings_processed := stats.findings_processed + 1 }, rows ++ [row])
    | Except.error e =>
      (db, { stats with
        errors := stats.errors ++ ["Analysis failed for " ++ toString f.id ++ ": " ++ e],
        findings_processed := stats.findings_processed + 1 }, rows)
  else
    (db, { stats with
      errors := stats.errors ++ ["Analysis failed for " ++ toString f.id ++ ": Pipeline failed"],
      findings_processed := stats.findings_processed + 1 }, rows)

/-- `AnalysisProcessor.process_pending_analysis`. -/
def processPendingAnalysis (oracle : Nat → AnalysisPipelineResult)
    (postOracle : Nat → Except String Unit)
    (db : List Finding) (limit : Option Nat) :
    List Finding × ProcessingStats × List AnalysisRow :=
  (getPendingAnalysis db limit).foldl (analysisStep oracle postOracle) (db, {}, [])

/-- A batch pass with its per-record oracle and batch limit, for stating
properties of arbitrary pass sequences. -/
inductive PassSpec where
  | classification (oracle : Nat → Except String ClassOutcome) (limit : Option Nat)
  | analysis (oracle : Nat → AnalysisPipelineResult)
      (postOracle : Nat → Except String Unit) (limit : Option Nat)

/-- The database after one batch pass. -/
def applyPass (db : List Finding) : PassSpec → List Finding
  | PassSpec.classification oracle limit => (processPendingClassification oracle db limit).1
  | PassSpec.analysis oracle postOracle limit =>
    (processPendingAnalysis oracle postOracle db limit).1

/-- The database after a sequence of batch passes. -/
def runPasses (db : List Finding) (ps : List PassSpec) : List Finding :=
  ps.foldl applyPass db

/-! ## Scheduler run (src/scrapers/scheduler.py 165-236) -/

/-- The `Source` fields `_run_scraper` reads. -/
structure SourceRec where
  id : Nat
  code : String
  base_url : String
  is_active : Bool
deriving DecidableEq, Repr

/-- `ScraperScheduler._run_scraper`: returns `None` when the source is
unknown or inactive, when `ScraperFactory.create` raises for an
unregistered code, or when the scrape itself raises; otherwise saves the
results (dedup-checked) and returns the scraper's `ScrapeResult`
unchanged — in particular the `(new, duplicate)` counts computed by
`_save_scrape_results` are discarded, not copied into the result. -/
def ScraperScheduler.runScraper (source : Option SourceRec) (registered : Bool)
    (scrape_outcome : Except String ScrapeResult)
    (db : List Finding) (nextId : Nat) : Option ScrapeResult × List Finding :=
  match source with
  | none => (none, db)
  | some src =>
    if src.is_active = false then (none, db)
    else if registered = false then (none, db)
    else
      match scrape_outcome with
      | Except.error _ => (none, db)
      | Except.ok result =>
        (some result, (saveScrapeResults db nextId src.id result.findings).db)

/-! ## UK PFD scrape loop (src/scrapers/uk_pfd.py 89-221)

The fetch and the pure parsers are the environment; the loop, its error
handling and its accounting are the model.  The loop is fueled: the source
`while` loop has no termination guarantee when listing fetches keep
failing past page one (pages_scraped stops advancing, so the retried URL
never changes), and every claim below quantifies only over runs that
return. -/

/-- The scrape environment: `fetch_page`, and the two pure parsers of the
adapter contract. -/
structure ScrapeEnv where
  base_url : String
  fetch_page : String → Except String String
  parse_listing : String → String → Except String (List ScrapedFinding × Option String)
  parse_detail : String → ScrapedFinding → Except String ScrapedFinding

/-- `UKPFDScraper._build_listing_url`: `?paged=N` for pages past the first. -/
def buildListingUrl (base_url : String) (page : Nat) : String :=
  if page > 1 then base_url ++ "?paged=" ++ toString page else base_url

/-- The detail-page step for one candidate: on any failure the candidate is
kept with its partial listing data and a warning is recorded. -/
def detailStep (env : ScrapeEnv) (f : ScrapedFinding) : ScrapedFinding × Option String :=
  match env.fetch_page f.source_url with
  | Except.error _ => (f, some ("Detail fetch failed: " ++ f.external_id))
  | Except.ok content =>
    match env.parse_detail content f with
    | Except.error _ => (f, some ("Detail fetch failed: " ++ f.external_id))
    | Except.ok f2 => (f2, none)

/-- The mutable loop state of `UKPFDScraper.scrape`. -/
structure ScrapeState where
  all_findings : List ScrapedFinding := []
  errors : List String := []
  warnings : List String := []
  pages_scraped : Nat := 0
  failed_pages : Nat := 0
  current_url : Option String := none

/-- The body of the per-page try block: fetch the listing page, then parse
it; either step's exception aborts the block. -/
def fetchAndParse (env : ScrapeEnv) (url : String) :
    Except String (List ScrapedFinding × Option String) :=
  match env.fetch_page url with
  | Except.error e => Except.error e
  | Except.ok content => env.parse_listing content url

/-- The `while current_url and pages_scraped < self.max_pages` loop of
`UKPFDScraper.scrape`: fetch+parse a listing page; on failure record the
error, count the failed page, abort if this was the first page and
otherwise retry the next computed listing URL; on success visit every
candidate's detail page and follow the parsed next-page link. -/
def scrapeLoop (env : ScrapeEnv) (max_pages : Nat) : Nat → ScrapeState → ScrapeState
  | 0, st => st
  | fuel + 1, st =>
    match st.current_url with
    | none => st
    | some url =>
      if st.pages_scraped < max_pages then
        match fetchAndParse env url with
        | Except.error _ =>
          let st2 := { st with
            errors := st.errors ++ ["Page scrape failed: " ++ url],
            failed_pages := st.failed_pages + 1 }
          if st2.pages_scraped = 0 then st2
          else
            let nextUrl := buildListingUrl env.base_url (st2.pages_scraped + 2)
            scrapeLoop env max_pages fuel { st2 with current_url := some nextUrl }
        | Except.ok (findings, next_url) =>
          let detailed := findings.map (detailStep env)
          scrapeLoop env max_pages fuel
            { st with
              all_findings := st.all_findings ++ detailed.map Prod.fst,
              warnings := st.warnings ++ detailed.filterMap Prod.snd,
              pages_scraped := st.pages_scraped + 1,
              current_url := next_url }
      else st

/-- `UKPFDScraper.scrape`: run the loop from the first listing URL and
package the `ScrapeResult` (`new_findings` is set to the number of scraped
findings and `duplicate_findings` to 0 — the source comments that the
scheduler will update them). -/
def UKPFDScraper.scrape (env : ScrapeEnv) (max_pages : Nat) (fuel : Nat) : ScrapeResult :=
  let st := scrapeLoop env max_pages fuel
    { current_url := some (buildListingUrl env.base_url 1) }
  { findings := st.all_findings,
    pages_scraped := st.pages_scraped,
    new_findings := st.all_findings.length,
    duplicate_findings := 0,
    failed_pages := st.failed_pages,
    errors := st.errors,
    warnings := st.warnings }

/-! ## MD5 (`hashlib.md5(...).hexdigest()`) and the external-id generator
(src/scrapers/base.py 457-472, src/scrapers/uk_pfd.py 405-428)

Bytes and 32-bit words are naturals reduced mod `2^32` / `2^64` where the
machine arithmetic overflows. -/

/-- 32-bit left rotation. -/
def rotl32 (x n : Nat) : Nat :=
  ((x <<< n) ||| (x >>> (32 - n))) % 4294967296

/-- The 64 MD5 sine-derived constants. -/
def md5K : List Nat :=
  [0xd76aa478, 0xe8c7b756, 0x242070db, 0xc1bdceee,
   0xf57c0faf, 0x4787c62a, 0xa8304613, 0xfd469501,
   0x698098d8, 0x8b44f7af, 0xffff5bb1, 0x895cd7be,
   0x6b901122, 0xfd987193, 0xa679438e, 0x49b40821,
   0xf61e2562, 0xc040b340, 0x265e5a51, 0xe9b6c7aa,
   0xd62f105d, 0x02441453, 0xd8a1e681, 0xe7d3fbc8,
   0x21e1cde6, 0xc33707d6, 0xf4d50d87, 0x455a14ed,
   0xa9e3e905, 0xfcefa3f8, 0x676f02d9, 0x8d2a4c8a,
   0xfffa3942, 0x8771f681, 0x6d9d6122, 0xfde5380c,
   0xa4beea44, 0x4bdecfa9, 0xf6bb4b60, 0xbebfbc70,
   0x289b7ec6, 0xeaa127fa, 0xd4ef3085, 0x04881d05,
   0xd9d4d039, 0xe6db99e5, 0x1fa27cf8, 0xc4ac5665,
   0xf4292244, 0x432aff97, 0xab9423a7, 0xfc93a039,
   0x655b59c3, 0x8f0ccc92, 0xffeff47d, 0x85845dd1,
   0x6fa87e4f, 0xfe2ce6e0, 0xa3014314, 0x4e0811a1,
   0xf7537e82, 0xbd3af235, 0x2ad7d2bb, 0xeb86d391]

/-- The 64 MD5 per-round shift amounts. -/
def md5S : List Nat :=
  [7, 12, 17, 22, 7, 12, 17, 22, 7, 12, 17, 22, 7, 12, 17, 22,
   5, 9, 14, 20, 5, 9, 14, 20, 5, 9, 14, 20, 5, 9, 14, 20,
   4, 11, 16, 23, 4, 11, 16, 23, 4, 11, 16, 23, 4, 11, 16, 23,
   6, 10, 15, 21, 6, 10, 15, 21, 6, 10, 15, 21, 6, 10, 15, 21]

/-- The MD5 round mixing function for round `i`. -/
def md5F (i b c d : Nat) : Nat :=
  if i < 16 then (b &&& c) ||| ((4294967295 ^^^ b) &&& d)
  else if i < 32 then (d &&& b) ||| ((4294967295 ^^^ d) &&& c)
  else if i < 48 then b ^^^ c ^^^ d
  else c ^^^ (b ||| (4294967295 ^^^ d))

/-- The MD5 message-word index for round `i`. -/
def md5G (i : Nat) : Nat :=
  if i < 16 then i
  else if i < 32 then (5 * i + 1) % 16
  else if i < 48 then (3 * i + 5) % 16
  else (7 * i) % 16

/-- One MD5 round over the 16 message words `M`. -/
def md5Step (M : List Nat) (st : Nat × Nat × Nat × Nat) (i : Nat) :
    Nat × Nat × Nat × Nat :=
  let (a, b, c, d) := st
  let f := (md5F i b c d + a + md5K.getD i 0 + M.getD (md5G i) 0) % 4294967296
  (d, (b + rotl32 f (md5S.getD i 0)) % 4294967296, b, c)

/-- Process one 512-bit chunk. -/
def md5Chunk (st : Nat × Nat × Nat × Nat) (M : List Nat) : Nat × Nat × Nat × Nat :=
  let (a0, b0, c0, d0) := st
  let (a, b, c, d) := (List.range 64).foldl (md5Step M) st
  ((a0 + a) % 4294967296, (b0 + b) % 4294967296,
   (c0 + c) % 4294967296, (d0 + d) % 4294967296)

/-- `k` little-endian bytes of `n`. -/
def leBytes (n : Nat) : Nat → List Nat
  | 0 => []
  | k + 1 => (n % 256) :: leBytes (n / 256) k

/-- MD5 padding: `0x80`, zeros to 56 mod 64, then the 64-bit bit length
little-endian. -/
def md5Pad (msg : List Nat) : List Nat :=
  let len := msg.length
  let zeros := (120 - ((len + 1) % 64)) % 64
  msg ++ [128] ++ List.replicate zeros 0 ++ leBytes ((len * 8) % 18446744073709551616) 8

/-- Split into 64-byte chunks (fueled by the list length). -/
def chunks64 : Nat → List Nat → List (List Nat)
  | 0, _ => []
  | _, [] => []
  | fuel + 1, bs => bs.take 64 :: chunks64 fuel (bs.drop 64)

/-- Decode a 64-byte chunk into 16 little-endian 32-bit words. -/
def toWords : List Nat → List Nat
  | b0 :: b1 :: b2 :: b3 :: rest =>
    (b0 + 256 * b1 + 65536 * b2 + 16777216 * b3) :: toWords rest
  | _ => []

/-- The 16-byte MD5 digest of a byte sequence. -/
def md5Digest (msg : List Nat) : List Nat :=
  let padded := md5Pad msg
  let chunks := chunks64 (padded.length + 1) padded
  let st := chunks.foldl (fun st ch => md5Chunk st (toWords ch))
    (1732584193, 4023233417, 2562383102, 271733878)
  leBytes st.1 4 ++ leBytes st.2.1 4 ++ leBytes st.2.2.1 4 ++ leBytes st.2.2.2 4

/-- The sixteen lowercase hex digits. -/
def hexChars : List Char := "0123456789abcdef".data

/-- Hex digit of `n % 16`. -/
def toHexDigit (n : Nat) : Char := hexChars.getD (n % 16) '0'

/-- Two hex digits of a byte. -/
def byteToHex (b : Nat) : List Char := [toHexDigit (b / 16), toHexDigit b]

/-- `hashlib.md5(bytes).hexdigest()` as a character list. -/
def md5Hex (msg : List Nat) : List Char :=
  ((md5Digest msg).map byteToHex).flatten

/-- UTF-8 encoding of one character (`str.encode()`). -/
def utf8EncodeChar (c : Char) : List Nat :=
  let n := c.toNat
  if n < 128 then [n]
  else if n < 2048 then [192 ||| (n >>> 6), 128 ||| (n &&& 63)]
  else if n < 65536 then
    [224 ||| (n >>> 12), 128 ||| ((n >>> 6) &&& 63), 128 ||| (n &&& 63)]
  else
    [240 ||| (n >>> 18), 128 ||| ((n >>> 12) &&& 63),
     128 ||| ((n >>> 6) &&& 63), 128 ||| (n &&& 63)]

/-- UTF-8 encoding of a string (`str.encode()`). -/
def utf8Encode (s : String) : List Nat :=
  (s.data.map utf8EncodeChar).flatten

/-- A lowercase-hex character. -/
def isHexChar (c : Char) : Bool := c ∈ hexChars

/-- `combined = "_".join(str(p) for p in parts if p)` in
`BaseScraper.generate_external_id`: the truthy (non-empty) parts joined
with underscores. -/
def joinedParts (parts : List String) : String :=
  String.intercalate "_" (parts.filter (fun p => !p.isEmpty))

/-- `BaseScraper.generate_external_id`: join the truthy parts with
underscores; when the joined form exceeds 80 characters, keep its first 70
characters and append an underscore and the first 8 hex characters of its
MD5 digest. -/
def BaseScraper.generate_external_id (parts : List String) : String :=
  if (joinedParts parts).length > 80 then
    String.mk ((joinedParts parts).data.take 70) ++ "_" ++
      String.mk ((md5Hex (utf8Encode (joinedParts parts))).take 8)
  else joinedParts parts

/-- The path component of a URL as `urllib.parse.urlparse(url).path` (for
the report URLs at hand: strip the fragment, strip the query, and when a
`://` is present skip the scheme and network location). -/
def urlPath (url : String) : String :=
  let beforeFrag := String.mk (url.data.takeWhile (fun c => c != '#'))
  let beforeQuery := String.mk (beforeFrag.data.takeWhile (fun c => c != '?'))
  match beforeQuery.splitOn "://" with
  | _ :: rest :: more =>
    let afterScheme := String.intercalate "://" (rest :: more)
    String.mk (afterScheme.data.dropWhile (fun c => c != '/'))
  | _ => beforeQuery

/-- `UKPFDScraper._extract_external_id`: the last segment of the URL path
stripped of surrounding slashes (`"".split("/")` is `[""]`, so the
hash-fallback branch of the source is unreachable). -/
def UKPFDScraper.extract_external_id (url : String) : String :=
  let path := String.mk
    (((urlPath url).data.dropWhile (fun c => c == '/')).reverse.dropWhile
      (fun c => c == '/')).reverse
  ((path.splitOn "/").getLast?).getD path

/-! ## Lifecycle ordering -/

/-- Position of a finding status along the `NEW → CLASSIFIED → ANALYSED`
lifecycle (PUBLISHED and EXCLUDED sit past it; neither batch pass ever
selects them). -/
def statusRank : FindingStatus → Nat
  | FindingStatus.NEW => 0
  | FindingStatus.CLASSIFIED => 1
  | FindingStatus.ANALYSED => 2
  | FindingStatus.PUBLISHED => 3
  | FindingStatus.EXCLUDED => 4

/-- What one classification-pass step may do to a stored row: leave it
alone, or move a NEW row to CLASSIFIED. -/
def RClass (o n : Finding) : Prop :=
  n = o ∨ (o.status = FindingStatus.NEW ∧ n.status = FindingStatus.CLASSIFIED)

/-- What one full-analysis-pass step may do to a stored row: leave it
alone, or move a CLASSIFIED row to ANALYSED. -/
def RAnal (o n : Finding) : Prop :=
  n = o ∨ (o.status = FindingStatus.CLASSIFIED ∧ n.status = FindingStatus.ANALYSED)

/-- The lifecycle never moves backward between two row versions. -/
def RankLe (o n : Finding) : Prop := statusRank o.status ≤ statusRank n.status

/-! ## Concrete fixtures used to instantiate the theorems -/

/-- A two-row store: one NEW unclassified finding, one CLASSIFIED
healthcare finding. -/
def c2db : List Finding :=
  [{ id := 1, source_id := 1, external_id := "a" },
   { id := 2, source_id := 1, external_id := "b",
     status := FindingStatus.CLASSIFIED, is_healthcare := some true }]

/-- An active source row. -/
def c7src : SourceRec :=
  { id := 1, code := "uk_pfd", base_url := "https://example.org",
    is_active := true }

/-- A blog-stage result consuming 5 tokens. -/
def c10blog : BlogPostResult :=
  { title := Json.str "", content_markdown := Json.str "",
    excerpt := Json.str "", key_learnings := Json.arr [], tags := Json.arr [],
    tokens_used := 5 }

/-- A pipeline result with an odd total token count (5). -/
def c10res : AnalysisPipelineResult :=
  { blog_post := some c10blog }

/-- A classification pass followed by a full-analysis pass whose
post-creation step raises (the half-failure path of
`process_pending_analysis`). -/
def c2passes : List PassSpec :=
  [PassSpec.classification
     (fun _ => Except.ok { is_healthcare := true, confidence := 1 }) none,
   PassSpec.analysis (fun _ => c10res)
     (fun _ => Except.error "slugify: TypeError") (some 5)]

/-- Three scraped candidates, the third a within-run duplicate of the
first. -/
def c3cands : List ScrapedFinding :=
  [{ external_id := "report-1" }, { external_id := "report-2" },
   { external_id := "report-1" }]

/-- A scrape environment whose every fetch fails. -/
def c5env : ScrapeEnv :=
  { base_url := "https://example.org/pfd",
    fetch_page := fun _ => Except.error "connection refused",
    parse_listing := fun _ _ => Except.error "unused",
    parse_detail := fun _ f => Except.ok f }

/-- A mid-run loop state: one listing page already scraped, one finding
already collected. -/
def c5st : ScrapeState :=
  { all_findings := [{ external_id := "kept" }], errors := [], warnings := [],
    pages_scraped := 1, failed_pages := 0,
    current_url := some "https://example.org/pfd?paged=2" }

/-- A classification response marking the content healthcare-related. -/
def c8r0 : LLMResponse :=
  { content := "\x7b\"is_healthcare\": true\x7d", tokens_input := 100, tokens_output := 50 }

/-- An extraction-stage response. -/
def c8r1 : LLMResponse := { content := "{}", tokens_input := 200, tokens_output := 300 }

/-- A human-factors-stage response. -/
def c8r2 : LLMResponse := { content := "{}", tokens_input := 400, tokens_output := 600 }

/-- A blog-stage response. -/
def c8r3 : LLMResponse := { content := "{}", tokens_input := 300, tokens_output := 300 }

/-- A Gateway oracle answering the four pipeline calls in order. -/
def c8client : Nat → Except String LLMResponse
  | 0 => Except.ok c8r0
  | 1 => Except.ok c8r1
  | 2 => Except.ok c8r2
  | _ => Except.ok c8r3

/-- A finding with healthcare content text. -/
def c8finding : Finding :=
  { id := 1, source_id := 1, external_id := "rpt",
    content_text := some "inquest into a hospital death" }

/-- The classification stage result for `c8r0`. -/
def c8c : ClassificationResult :=
  { is_healthcare := Json.bool true, confidence := PyNum.finite 0,
    reasoning := Json.str "", tokens_used := 150, cost_usd := 0 }

/-- The extraction stage result for `c8r1`. -/
def c8ex : ExtractionResult := { summary := Json.str "", tokens_used := 500 }

/-- The human-factors stage result for `c8r2`. -/
def c8hf : HumanFactorsResult := { tokens_used := 1000 }

/-- The blog stage result for `c8r3`. -/
def c8bp : BlogPostResult :=
  { title := Json.str "", content_markdown := Json.str "", excerpt := Json.str "",
    key_learnings := Json.arr [], tags := Json.arr [], tokens_used := 600 }

/-- The row `analysisRowOf` persists for `c10res`. -/
def c10row : AnalysisRow :=
  { finding_id := 3, summary := Json.str "", human_factors := Json.obj [],
    latent_hazards := Json.arr [], recommendations := Json.arr [],
    key_learnings := Json.arr [], settings := Json.arr [],
    specialties := Json.arr [], tokens_input := 2, tokens_output := 2,
    cost_usd := 0 }

end Coroner

namespace Coroner

/-! # Theorems -/

/-! ## C1: Post publication -/

/-- C1 (counterexample): the claim states that `publish` moves a Post to
PUBLISHED only when it has passed through APPROVED, and that `publish` on a
Post in any other status leaves it unchanged and returns no result.  On a
Post in DRAFT — which is not APPROVED — `publish` nevertheless publishes it
and returns the updated Post. -/
theorem C1_publish_counterexample :
    PostStatus.DRAFT ≠ PostStatus.APPROVED ∧
    PostRepository.publish (some { status := PostStatus.DRAFT }) 7 =
      some { status := PostStatus.PUBLISHED, published_at := some 7 } := by
  constructor
  · decide
  · rfl

/-- C1 (amended): `publish` moves a Post to PUBLISHED exactly when its
status is APPROVED or DRAFT; in every other status, or when the post does
not exist, it returns no result and leaves the row unchanged; and `approve`
with the explicit publish-now flag force-publishes. -/
theorem C1_publish_amended (p : Post) (reviewer : String) (now : Nat) :
    (PostRepository.publish (some p) now =
      if p.status = PostStatus.APPROVED ∨ p.status = PostStatus.DRAFT then
        some { p with status := PostStatus.PUBLISHED, published_at := some now }
      else none) ∧
    PostRepository.publish none now = none ∧
    PostRepository.approve (some p) reviewer true now =
      some { p with reviewed_by := some reviewer, reviewed_at := some now,
                    status := PostStatus.PUBLISHED, published_at := some now } := by
  refine ⟨?_, rfl, rfl⟩
  by_cases h : p.status = PostStatus.APPROVED ∨ p.status = PostStatus.DRAFT <;>
    simp [PostRepository.publish, h]

/-! ## C10: persisted token split -/

/-- C10 helper: the rows appended by the analysis pass all arise from
`analysisRowOf`. -/
theorem analysisStep_rows (oracle : Nat → AnalysisPipelineResult)
    (postOracle : Nat → Except String Unit) (sel : List Finding) :
    ∀ acc : List Finding × ProcessingStats × List AnalysisRow,
      ∀ row ∈ (sel.foldl (analysisStep oracle postOracle) acc).2.2,
        row ∈ acc.2.2 ∨ ∃ fid res, analysisRowOf fid res = Except.ok row := by
  induction sel with
  | nil => intro acc row h; exact Or.inl h
  | cons f rest ih =>
    intro acc row h
    rcases ih (analysisStep oracle postOracle acc f) row h with hmem | hnew
    · unfold analysisStep at hmem
      rcases acc with ⟨db, stats, rows⟩
      dsimp at hmem
      split at hmem
      · split at hmem
        · rename_i heq
          split at hmem
          · rcases List.mem_append.mp hmem with h1 | h2
            · exact Or.inl h1
            · exact Or.inr ⟨f.id, oracle f.id, by rw [heq, List.mem_singleton.mp h2]⟩
          · rcases List.mem_append.mp hmem with h1 | h2
            · exact Or.inl h1
            · exact Or.inr ⟨f.id, oracle f.id, by rw [heq, List.mem_singleton.mp h2]⟩
        · exact Or.inl hmem
      · exact Or.inl hmem
    · exact Or.inr hnew

/-- C10: every Analysis persisted by the full-analysis pass stores
`tokens_input = tokens_output = total_tokens // 2` of its pipeline result,
so their sum is `total_tokens - total_tokens % 2` (one short of the true
total when it is odd), while `cost_usd` is the exact pipeline total cost. -/
theorem C10_token_split (oracle : Nat → AnalysisPipelineResult)
    (postOracle : Nat → Except String Unit)
    (db : List Finding) (limit : Option Nat) :
    (∀ row ∈ (processPendingAnalysis oracle postOracle db limit).2.2,
      ∃ fid res, analysisRowOf fid res = Except.ok row) ∧
    ∀ fid res row, analysisRowOf fid res = Except.ok row →
      row.tokens_input = res.total_tokens / 2 ∧
      row.tokens_output = res.total_tokens / 2 ∧
      row.tokens_input + row.tokens_output = res.total_tokens - res.total_tokens % 2 ∧
      (res.total_tokens % 2 = 1 →
        row.tokens_input + row.tokens_output + 1 = res.total_tokens) ∧
      row.cost_usd = res.total_cost_usd := by
  constructor
  · intro row h
    rcases analysisStep_rows oracle postOracle (getPendingAnalysis db limit)
      (db, {}, []) row h with habs | hok
    · simp at habs
    · exact hok
  · intro fid res row h
    unfold analysisRowOf at h
    split at h
    · exact absurd h (by simp)
    · exact absurd h (by simp)
    · rw [Except.ok.injEq] at h
      subst h
      refine ⟨rfl, rfl, ?_, fun hodd => ?_, rfl⟩
      · dsimp only
        omega
      · dsimp only
        omega

/-- C10 (witness): the token-split bound at a concrete pipeline result with
an odd total (5 tokens): the persisted row stores 2 and 2, undercounting by
one. -/
theorem C10_token_split_witness :
    c10row.tokens_input + c10row.tokens_output + 1 = 5 := by
  have hrow : analysisRowOf 3 c10res = Except.ok c10row := by
    simp [analysisRowOf, c10res, c10blog, c10row, AnalysisPipelineResult.total_tokens,
      AnalysisPipelineResult.total_cost_usd]
  have hmain := (C10_token_split (fun _ => {}) (fun _ => Except.ok ()) [] none).2
    3 c10res c10row hrow
  have hodd : c10res.total_tokens % 2 = 1 := rfl
  have h4 := hmain.2.2.2.1 hodd
  have htot : c10res.total_tokens = 5 := rfl
  rw [htot] at h4
  exact h4

/-! ## C4: default classification on unparseable responses -/

/-- C4: for every provider response whose content is not valid JSON —
directly, inside a fenced code block, or as an embedded brace region — the
classification stage returns (rather than raising) a ClassificationResult
with `is_healthcare = false` and `confidence = 0.0` (and an empty reasoning
string), charging the response's tokens and cost. -/
theorem C4_classification_default (response : LLMResponse)
    (h1 : jsonLoads response.content = none)
    (h2 : (extractFenced response.content).bind jsonLoads = none)
    (h3 : (extractBraces response.content).bind jsonLoads = none) :
    classifyFromResponse response = Except.ok
      { is_healthcare := Json.bool false, confidence := PyNum.finite 0,
        reasoning := Json.str "", tokens_used := response.total_tokens,
        cost_usd := response.cost_usd } := by
  unfold classifyFromResponse AnalysisPipeline.parse_json
  rw [h1, h2, h3]
  rfl

/-- C4 (witness): a plain-prose refusal response yields the default
classification without an exception. -/
theorem C4_classification_default_witness :
    classifyFromResponse
      { content := "I cannot classify this document.",
        tokens_input := 7, tokens_output := 5, cost_usd := 1 / 100 } = Except.ok
      { is_healthcare := Json.bool false, confidence := PyNum.finite 0,
        reasoning := Json.str "", tokens_used := 12, cost_usd := 1 / 100 } :=
  C4_classification_default _ rfl rfl rfl

/-! ## C9: deterministic external ids -/

/-- `leBytes` always yields exactly `k` bytes. -/
theorem leBytes_length (n k : Nat) : (leBytes n k).length = k := by
  induction k generalizing n with
  | zero => rfl
  | succ k ih => simp [leBytes, ih]

/-- The MD5 digest is 16 bytes. -/
theorem md5Digest_length (msg : List Nat) : (md5Digest msg).length = 16 := by
  unfold md5Digest
  simp [leBytes_length]

/-- The MD5 hex digest is 32 characters. -/
theorem md5Hex_length (msg : List Nat) : (md5Hex msg).length = 32 := by
  unfold md5Hex
  rw [List.length_flatten]
  have h : ∀ l : List Nat, ((l.map byteToHex).map List.length).sum = 2 * l.length := by
    intro l
    induction l with
    | nil => rfl
    | cons a t ih =>
      have hb : (byteToHex a).length = 2 := rfl
      simp only [List.map_cons, List.sum_cons, ih, hb, List.length_cons]
      ring
  rw [h, md5Digest_length]

/-- Hex digits are hex characters. -/
theorem isHexChar_toHexDigit (n : Nat) : isHexChar (toHexDigit n) = true := by
  have hlt : n % 16 < 16 := Nat.mod_lt _ (by decide)
  have h : ∀ i : Fin 16, isHexChar (hexChars.getD (i : Nat) '0') = true := by decide
  have := h ⟨n % 16, hlt⟩
  simpa [toHexDigit] using this

/-- Every character of an MD5 hex digest is a hex character. -/
theorem md5Hex_all_hex (msg : List Nat) : ∀ c ∈ md5Hex msg, isHexChar c = true := by
  intro c hc
  unfold md5Hex at hc
  rw [List.mem_flatten] at hc
  obtain ⟨l, hl, hcl⟩ := hc
  rw [List.mem_map] at hl
  obtain ⟨b, _, rfl⟩ := hl
  simp only [byteToHex, List.mem_cons, List.mem_singleton] at hcl
  rcases hcl with rfl | rfl | h
  · exact isHexChar_toHexDigit _
  · exact isHexChar_toHexDigit _
  · cases h

/-- C9: the external-id generator is a pure function of its parts (so two
scrapes of the same URL produce the same id); the joined form is returned
unchanged when it is at most 80 characters, and otherwise its first 70
characters are returned followed by an underscore and an 8-hex-character
MD5 suffix. -/
theorem C9_external_id (parts : List String) :
    ((joinedParts parts).length ≤ 80 →
      BaseScraper.generate_external_id parts = joinedParts parts) ∧
    ((joinedParts parts).length > 80 →
      BaseScraper.generate_external_id parts =
        String.mk ((joinedParts parts).data.take 70) ++ "_" ++
          String.mk ((md5Hex (utf8Encode (joinedParts parts))).take 8) ∧
      ((md5Hex (utf8Encode (joinedParts parts))).take 8).length = 8 ∧
      ∀ c ∈ (md5Hex (utf8Encode (joinedParts parts))).take 8, isHexChar c = true) := by
  constructor
  · intro h
    unfold BaseScraper.generate_external_id
    rw [if_neg (by omega)]
  · intro h
    refine ⟨?_, ?_, ?_⟩
    · unfold BaseScraper.generate_external_id
      rw [if_pos h]
    · rw [List.length_take, md5Hex_length]
      omega
    · intro c hc
      exact md5Hex_all_hex _ c (List.take_subset _ _ hc)

/-- C9 (witness): a short id is returned unchanged, and a 90-character part
is truncated to 70 characters plus the hash suffix. -/
theorem C9_external_id_witness :
    BaseScraper.generate_external_id ["uk_pfd", "", "report-one"] =
      joinedParts ["uk_pfd", "", "report-one"] ∧
    BaseScraper.generate_external_id [String.mk (List.replicate 90 'a')] =
      String.mk ((joinedParts [String.mk (List.replicate 90 'a')]).data.take 70)
        ++ "_" ++
        String.mk ((md5Hex (utf8Encode
          (joinedParts [String.mk (List.replicate 90 'a')]))).take 8) :=
  ⟨(C9_external_id ["uk_pfd", "", "report-one"]).1 (by decide),
   ((C9_external_id [String.mk (List.replicate 90 'a')]).2 (by decide)).1⟩

/-! ## C6: Gateway retry loop -/

/-- Backoff-schedule bookkeeping: prepending the sleep of the current
attempt to the schedule of the following attempts. -/
theorem pow_range_shift (att n : Nat) :
    [2 ^ att] ++ (List.range n).map (fun a => 2 ^ (att + 1 + a)) =
      (List.range (n + 1)).map (fun a => 2 ^ (att + a)) := by
  rw [List.range_succ_eq_map, List.singleton_append]
  simp only [List.map_cons, Nat.add_zero, List.map_map]
  congr 1
  apply List.map_congr_left
  intro a _
  simp only [Function.comp_apply]
  congr 1
  omega

/-- Behaviour of the retry loop when every remaining attempt fails: it
performs exactly the remaining number of calls, sleeps `2 ^ attempt`
seconds after each failure except the last, and re-raises the error of the
final attempt. -/
theorem completeGo_all_fail (callApi : Nat → Except String (String × Nat × Nat))
    (cin cout : ℚ) :
    ∀ (remaining attempt : Nat) (lastE : Option String) (calls : Nat)
      (sleeps : List Nat),
      (∀ j, attempt ≤ j → j < attempt + remaining → ∃ e, callApi j = Except.error e) →
      (completeGo callApi cin cout remaining attempt lastE calls sleeps).calls
          = calls + remaining ∧
      (completeGo callApi cin cout remaining attempt lastE calls sleeps).sleeps
          = sleeps ++ (List.range (remaining - 1)).map (fun a => 2 ^ (attempt + a)) ∧
      ∀ e, callApi (attempt + remaining - 1) = Except.error e → 0 < remaining →
        (completeGo callApi cin cout remaining attempt lastE calls sleeps).result
          = Except.error (some e) := by
  intro remaining
  induction remaining with
  | zero =>
    intro attempt lastE calls sleeps _
    exact ⟨rfl, by simp [completeGo], fun e _ h0 => absurd h0 (by omega)⟩
  | succ rem ih =>
    intro attempt lastE calls sleeps hfail
    obtain ⟨e0, he0⟩ := hfail attempt (Nat.le_refl _) (by omega)
    have hstep : completeGo callApi cin cout (rem + 1) attempt lastE calls sleeps
        = completeGo callApi cin cout rem (attempt + 1) (some e0) (calls + 1)
            (if rem > 0 then sleeps ++ [2 ^ attempt] else sleeps) := by
      simp [completeGo, he0]
    cases rem with
    | zero =>
      rw [hstep]
      refine ⟨by simp [completeGo], by simp [completeGo], fun e he _ => ?_⟩
      have : e = e0 := by
        have h2 : Except.error (ε := String) (α := String × Nat × Nat) e
            = Except.error e0 := by
          rw [← he, ← he0]
          congr 1
        exact (Except.error.injEq _ _).mp h2
      subst this
      simp [completeGo]
    | succ rem' =>
      rw [hstep, if_pos (Nat.succ_pos rem')]
      have hfail2 : ∀ j, attempt + 1 ≤ j → j < attempt + 1 + (rem' + 1) →
          ∃ e, callApi j = Except.error e := by
        intro j h1 h2
        exact hfail j (by omega) (by omega)
      obtain ⟨hc, hs, hr⟩ :=
        ih (attempt + 1) (some e0) (calls + 1) (sleeps ++ [2 ^ attempt]) hfail2
      refine ⟨by rw [hc]; omega, ?_, ?_⟩
      · rw [hs, List.append_assoc]
        congr 1
        exact pow_range_shift attempt rem'
      · intro e he h0
        apply hr e ?_ (Nat.succ_pos rem')
        rw [show attempt + 1 + (rem' + 1) - 1 = attempt + (rem' + 1 + 1) - 1 from by omega]
        exact he


/-- Any successful result of the retry loop is the response of some earlier
attempt of the API oracle, token counts and cost included — never a
synthesized value. -/
theorem completeGo_ok (callApi : Nat → Except String (String × Nat × Nat))
    (cin cout : ℚ) :
    ∀ (remaining attempt : Nat) (lastE : Option String) (calls : Nat)
      (sleeps : List Nat) (r : LLMResponse),
      (completeGo callApi cin cout remaining attempt lastE calls sleeps).result
          = Except.ok r →
      ∃ j, attempt ≤ j ∧ j < attempt + remaining ∧ ∃ tin tout,
        callApi j = Except.ok (r.content, tin, tout) ∧
        r.tokens_input = tin ∧ r.tokens_output = tout ∧
        r.cost_usd = calculateCost cin cout tin tout := by
  intro remaining
  induction remaining with
  | zero =>
    intro attempt lastE calls sleeps r h
    exact absurd h (by simp [completeGo])
  | succ rem ih =>
    intro attempt lastE calls sleeps r h
    rcases hc : callApi attempt with e | trip
    · rw [show completeGo callApi cin cout (rem + 1) attempt lastE calls sleeps
          = completeGo callApi cin cout rem (attempt + 1) (some e) (calls + 1)
              (if rem > 0 then sleeps ++ [2 ^ attempt] else sleeps) from by
        simp [completeGo, hc]] at h
      obtain ⟨j, hj1, hj2, rest⟩ := ih (attempt + 1) (some e) (calls + 1) _ r h
      exact ⟨j, by omega, by omega, rest⟩
    · rcases trip with ⟨content, tin, tout⟩
      have hres : (completeGo callApi cin cout (rem + 1) attempt lastE calls
          sleeps).result = Except.ok
            { content := content, tokens_input := tin, tokens_output := tout,
              cost_usd := calculateCost cin cout tin tout } := by
        simp [completeGo, hc]
      rw [hres] at h
      rw [Except.ok.injEq] at h
      subst h
      exact ⟨attempt, Nat.le_refl _, by omega, tin, tout, hc, rfl, rfl, rfl⟩

/-- C6 (counterexample): the claim — on each call failure the Gateway waits
`2 ^ attempt` seconds and retries, performing up to `max_retries` retries,
i.e. with an always-failing call and `max_retries = 3` the Gateway would
make `3 + 1` calls with three backoff waits.  The loop is
`for attempt in range(config.max_retries)`, so the code makes exactly 3
calls (2 retries) and sleeps only twice — there is no wait-and-retry after
the final failure. -/
theorem C6_retry_counterexample :
    (BaseLLMClient.complete (fun _ => Except.error "api down") (3 / 1000)
        (15 / 1000) { max_retries := 3 }).calls = 3 ∧
    (BaseLLMClient.complete (fun _ => Except.error "api down") (3 / 1000)
        (15 / 1000) { max_retries := 3 }).sleeps = [1, 2] ∧
    ¬ ((BaseLLMClient.complete (fun _ => Except.error "api down") (3 / 1000)
        (15 / 1000) { max_retries := 3 }).calls = 3 + 1) := by
  refine ⟨rfl, rfl, ?_⟩
  intro h
  rw [show (BaseLLMClient.complete (fun _ => Except.error "api down") (3 / 1000)
      (15 / 1000) { max_retries := 3 }).calls = 3 from rfl] at h
  omega

/-- C6 (amended): the Gateway performs up to `max_retries` total attempts
(so `max_retries - 1` retries); each failure except the final attempt's is
followed by a `2 ^ attempt`-second wait and a retry; when every attempt
fails, the error of the final attempt propagates to the caller; and every
successful response comes verbatim from the provider call — the Gateway
never synthesizes a fallback. -/
theorem C6_retry_amended (callApi : Nat → Except String (String × Nat × Nat))
    (cin cout : ℚ) (config : LLMConfig) :
    ((∀ j, j < config.max_retries → ∃ e, callApi j = Except.error e) →
      (BaseLLMClient.complete callApi cin cout config).calls = config.max_retries ∧
      (BaseLLMClient.complete callApi cin cout config).sleeps =
        (List.range (config.max_retries - 1)).map (fun a => 2 ^ a) ∧
      ∀ e, callApi (config.max_retries - 1) = Except.error e →
        0 < config.max_retries →
        (BaseLLMClient.complete callApi cin cout config).result
          = Except.error (some e)) ∧
    (∀ r, (BaseLLMClient.complete callApi cin cout config).result = Except.ok r →
      ∃ j, j < config.max_retries ∧ ∃ tin tout,
        callApi j = Except.ok (r.content, tin, tout) ∧
        r.tokens_input = tin ∧ r.tokens_output = tout ∧
        r.cost_usd = calculateCost cin cout tin tout) := by
  constructor
  · intro hfail
    obtain ⟨hc, hs, hr⟩ := completeGo_all_fail callApi cin cout
      config.max_retries 0 none 0 []
      (fun j _ hj => hfail j (by omega))
    refine ⟨by simpa using hc, by simpa using hs, fun e he h0 => ?_⟩
    apply hr e ?_ h0
    rw [show 0 + config.max_retries - 1 = config.max_retries - 1 from by omega]
    exact he
  · intro r h
    obtain ⟨j, _, hj2, rest⟩ :=
      completeGo_ok callApi cin cout config.max_retries 0 none 0 [] r h
    exact ⟨j, by omega, rest⟩

/-- C6 (witness): two always-failing attempts — two calls, one one-second
backoff wait, the last error propagated, no synthesized result. -/
theorem C6_retry_amended_witness :
    (BaseLLMClient.complete (fun _ => Except.error "boom") 1 1
        { max_retries := 2 }).calls = 2 ∧
    (BaseLLMClient.complete (fun _ => Except.error "boom") 1 1
        { max_retries := 2 }).sleeps = [1] ∧
    (BaseLLMClient.complete (fun _ => Except.error "boom") 1 1
        { max_retries := 2 }).result = Except.error (some "boom") := by
  obtain ⟨hc, hs, hr⟩ := (C6_retry_amended (fun _ => Except.error "boom") 1 1
      { max_retries := 2 }).1 (fun j _ => ⟨"boom", rfl⟩)
  exact ⟨hc, by rw [hs]; rfl, hr "boom" rfl (by decide)⟩

/-! ## C3: idempotent ingestion -/

/-- Dedup-key existence is monotone under appending rows. -/
theorem findingExists_append (db t : List Finding) (sid : Nat) (eid : String)
    (h : findingExists db sid eid = true) :
    findingExists (db ++ t) sid eid = true := by
  unfold findingExists at h ⊢
  rw [List.any_append, h, Bool.true_or]

/-- The save loop only appends rows; every appended row is a NEW finding
for this source carrying some candidate's external id that did not exist
at the start of the loop. -/
theorem saveFold_db (sid : Nat) (fs : List ScrapedFinding) :
    ∀ acc : SaveOutcome, ∃ t,
      (fs.foldl (saveStep sid) acc).db = acc.db ++ t ∧
      ∀ f ∈ t, f.status = FindingStatus.NEW ∧ f.source_id = sid ∧
        (∃ s ∈ fs, f.external_id = s.external_id) ∧
        findingExists acc.db sid f.external_id = false := by
  induction fs with
  | nil =>
    intro acc
    exact ⟨[], by simp, by simp⟩
  | cons s rest ih =>
    intro acc
    rw [List.foldl_cons]
    by_cases hex : findingExists acc.db sid s.external_id = true
    · have hstep : saveStep sid acc s = { acc with dupCount := acc.dupCount + 1 } := by
        simp [saveStep, hex]
      rw [hstep]
      obtain ⟨t, ht, hprop⟩ := ih { acc with dupCount := acc.dupCount + 1 }
      refine ⟨t, ht, ?_⟩
      intro f hf
      obtain ⟨h1, h2, ⟨s', hs', h3⟩, h4⟩ := hprop f hf
      exact ⟨h1, h2, ⟨s', List.mem_cons_of_mem _ hs', h3⟩, h4⟩
    · rw [Bool.not_eq_true] at hex
      have hstep : saveStep sid acc s = { acc with
          db := acc.db ++ [scrapedToFinding acc.nextId sid s],
          nextId := acc.nextId + 1, newCount := acc.newCount + 1 } := by
        simp [saveStep, hex]
      rw [hstep]
      obtain ⟨t, ht, hprop⟩ := ih { acc with
        db := acc.db ++ [scrapedToFinding acc.nextId sid s],
        nextId := acc.nextId + 1, newCount := acc.newCount + 1 }
      refine ⟨scrapedToFinding acc.nextId sid s :: t, ?_, ?_⟩
      · rw [ht]
        simp
      · intro f hf
        rcases List.mem_cons.mp hf with rfl | hf'
        · exact ⟨rfl, rfl, ⟨s, List.mem_cons_self _ _, rfl⟩, hex⟩
        · obtain ⟨h1, h2, ⟨s', hs', h3⟩, h4⟩ := hprop f hf'
          refine ⟨h1, h2, ⟨s', List.mem_cons_of_mem _ hs', h3⟩, ?_⟩
          by_cases hkey : findingExists acc.db sid f.external_id = true
          · have hup := findingExists_append acc.db
              [scrapedToFinding acc.nextId sid s] sid f.external_id hkey
            rw [hup] at h4
            exact absurd h4 (by simp)
          · rw [Bool.not_eq_true] at hkey
            exact hkey

/-- Every candidate is accounted for: new plus duplicate counts grow by
exactly the number of candidates. -/
theorem saveFold_counts (sid : Nat) (fs : List ScrapedFinding) :
    ∀ acc : SaveOutcome,
      (fs.foldl (saveStep sid) acc).newCount + (fs.foldl (saveStep sid) acc).dupCount
        = acc.newCount + acc.dupCount + fs.length := by
  induction fs with
  | nil => intro acc; simp
  | cons s rest ih =>
    intro acc
    rw [List.foldl_cons, ih]
    unfold saveStep
    by_cases hex : findingExists acc.db sid s.external_id = true
    · rw [if_pos hex]
      dsimp
      omega
    · rw [Bool.not_eq_true] at hex
      rw [if_neg (by simp [hex])]
      dsimp
      omega

/-- After a save, every candidate's dedup key exists in the store. -/
theorem saveFold_keys (sid : Nat) (fs : List ScrapedFinding) :
    ∀ acc : SaveOutcome, ∀ s ∈ fs,
      findingExists (fs.foldl (saveStep sid) acc).db sid s.external_id = true := by
  induction fs with
  | nil => intro acc s hs; cases hs
  | cons s0 rest ih =>
    intro acc s hs
    rw [List.foldl_cons]
    rcases List.mem_cons.mp hs with rfl | hs'
    · have h1 : findingExists (saveStep sid acc s).db sid s.external_id = true := by
        unfold saveStep
        by_cases hex : findingExists acc.db sid s.external_id = true
        · rw [if_pos hex]
          exact hex
        · rw [Bool.not_eq_true] at hex
          rw [if_neg (by simp [hex])]
          dsimp
          unfold findingExists scrapedToFinding
          rw [List.any_append]
          simp
      obtain ⟨t, ht, _⟩ := saveFold_db sid rest (saveStep sid acc s)
      rw [ht]
      exact findingExists_append _ _ _ _ h1
    · exact ih (saveStep sid acc s0) s hs'

/-- A save in which every candidate's key already exists changes nothing
and counts every candidate as a duplicate. -/
theorem saveFold_all_dup (sid : Nat) (fs : List ScrapedFinding) :
    ∀ acc : SaveOutcome,
      (∀ s ∈ fs, findingExists acc.db sid s.external_id = true) →
      fs.foldl (saveStep sid) acc = { acc with dupCount := acc.dupCount + fs.length } := by
  induction fs with
  | nil => intro acc _; simp
  | cons s rest ih =>
    intro acc hall
    rw [List.foldl_cons]
    have hs := hall s (List.mem_cons_self _ _)
    have hstep : saveStep sid acc s = { acc with dupCount := acc.dupCount + 1 } := by
      simp [saveStep, hs]
    rw [hstep]
    have hih := ih { acc with dupCount := acc.dupCount + 1 }
      (fun s' hs' => hall s' (List.mem_cons_of_mem _ hs'))
    rw [hih]
    simp only [SaveOutcome.mk.injEq, List.length_cons, true_and]
    omega

/-- C3: ingestion is idempotent over `(source_id, external_id)`: a save
only appends findings, each created with status NEW and only for a
candidate whose key did not already exist; every candidate is counted as
new or duplicate; and an immediate identical second save creates nothing,
changes nothing, and counts every candidate as a duplicate. -/
theorem C3_idempotent_ingestion (db : List Finding) (nid sid : Nat)
    (cs : List ScrapedFinding) :
    (∃ t, (saveScrapeResults db nid sid cs).db = db ++ t ∧
      ∀ f ∈ t, f.status = FindingStatus.NEW ∧ f.source_id = sid ∧
        (∃ s ∈ cs, f.external_id = s.external_id) ∧
        findingExists db sid f.external_id = false) ∧
    (saveScrapeResults db nid sid cs).newCount
        + (saveScrapeResults db nid sid cs).dupCount = cs.length ∧
    saveScrapeResults (saveScrapeResults db nid sid cs).db
        (saveScrapeResults db nid sid cs).nextId sid cs
      = { db := (saveScrapeResults db nid sid cs).db,
          nextId := (saveScrapeResults db nid sid cs).nextId,
          newCount := 0, dupCount := cs.length } := by
  unfold saveScrapeResults
  refine ⟨saveFold_db sid cs _, ?_, ?_⟩
  · have h := saveFold_counts sid cs
      { db := db, nextId := nid, newCount := 0, dupCount := 0 }
    simpa using h
  · have hd := saveFold_all_dup sid cs
      { db := (List.foldl (saveStep sid)
          { db := db, nextId := nid, newCount := 0, dupCount := 0 } cs).db,
        nextId := (List.foldl (saveStep sid)
          { db := db, nextId := nid, newCount := 0, dupCount := 0 } cs).nextId,
        newCount := 0, dupCount := 0 }
      (fun s hs => saveFold_keys sid cs
        { db := db, nextId := nid, newCount := 0, dupCount := 0 } s hs)
    rw [hd]
    simp

/-- C3 (witness): three candidates (one a within-run duplicate) over an
empty store: all three accounted on the first run, and the identical
second run creates nothing and counts all three as duplicates. -/
theorem C3_idempotent_ingestion_witness :
    (saveScrapeResults [] 0 1 c3cands).newCount
        + (saveScrapeResults [] 0 1 c3cands).dupCount = 3 ∧
    saveScrapeResults (saveScrapeResults [] 0 1 c3cands).db
        (saveScrapeResults [] 0 1 c3cands).nextId 1 c3cands
      = { db := (saveScrapeResults [] 0 1 c3cands).db,
          nextId := (saveScrapeResults [] 0 1 c3cands).nextId,
          newCount := 0, dupCount := 3 } :=
  ⟨(C3_idempotent_ingestion [] 0 1 c3cands).2.1,
   (C3_idempotent_ingestion [] 0 1 c3cands).2.2⟩

/-! ## C5: listing-page failure handling -/

/-- The scrape loop only ever appends to the collected findings and to the
error list, and never decreases the failed-page count. -/
theorem scrapeLoop_extends (env : ScrapeEnv) (max_pages : Nat) :
    ∀ (fuel : Nat) (st : ScrapeState), ∃ tf te,
      (scrapeLoop env max_pages fuel st).all_findings = st.all_findings ++ tf ∧
      (scrapeLoop env max_pages fuel st).errors = st.errors ++ te ∧
      st.failed_pages ≤ (scrapeLoop env max_pages fuel st).failed_pages := by
  intro fuel
  induction fuel with
  | zero =>
    intro st
    exact ⟨[], [], by simp [scrapeLoop], by simp [scrapeLoop], Nat.le_refl _⟩
  | succ fuel ih =>
    intro st
    rcases hcu : st.current_url with _ | url
    · refine ⟨[], [], ?_, ?_, ?_⟩ <;> simp [scrapeLoop, hcu]
    · by_cases hlt : st.pages_scraped < max_pages
      · rcases hfp : fetchAndParse env url with e | pr
        · by_cases hz : st.pages_scraped = 0
          · have hmp : 0 < max_pages := by omega
            refine ⟨[], ["Page scrape failed: " ++ url], ?_, ?_, ?_⟩ <;>
              simp [scrapeLoop, hcu, hfp, hlt, hz, hmp]
          · have hstep : scrapeLoop env max_pages (fuel + 1) st
                = scrapeLoop env max_pages fuel
                  { st with
                    errors := st.errors ++ ["Page scrape failed: " ++ url],
                    failed_pages := st.failed_pages + 1,
                    current_url := some
                      (buildListingUrl env.base_url (st.pages_scraped + 2)) } := by
              simp [scrapeLoop, hcu, hfp, hlt, hz]
            obtain ⟨tf, te, h1, h2, h3⟩ := ih
              { st with
                errors := st.errors ++ ["Page scrape failed: " ++ url],
                failed_pages := st.failed_pages + 1,
                current_url := some
                  (buildListingUrl env.base_url (st.pages_scraped + 2)) }
            refine ⟨tf, ("Page scrape failed: " ++ url) :: te, ?_, ?_, ?_⟩
            · rw [hstep, h1]
            · rw [hstep, h2]
              simp
            · rw [hstep]
              exact Nat.le_of_succ_le h3
        · rcases pr with ⟨findings, next_url⟩
          have hstep : scrapeLoop env max_pages (fuel + 1) st
              = scrapeLoop env max_pages fuel
                { st with
                  all_findings := st.all_findings ++
                    (findings.map (detailStep env)).map Prod.fst,
                  warnings := st.warnings ++
                    (findings.map (detailStep env)).filterMap Prod.snd,
                  pages_scraped := st.pages_scraped + 1,
                  current_url := next_url } := by
            simp [scrapeLoop, hcu, hfp, hlt]
          obtain ⟨tf, te, h1, h2, h3⟩ := ih
            { st with
              all_findings := st.all_findings ++
                (findings.map (detailStep env)).map Prod.fst,
              warnings := st.warnings ++
                (findings.map (detailStep env)).filterMap Prod.snd,
              pages_scraped := st.pages_scraped + 1,
              current_url := next_url }
          refine ⟨(findings.map (detailStep env)).map Prod.fst ++ tf, te, ?_, ?_, ?_⟩
          · rw [hstep, h1]
            simp
          · rw [hstep, h2]
          · rw [hstep]
            exact h3
      · refine ⟨[], [], ?_, ?_, ?_⟩ <;> simp [scrapeLoop, hcu, hlt]

/-- C5: a fetch failure on the first listing page aborts the run with zero
pages scraped, no findings, and a non-empty error list; a fetch failure on
a later listing page preserves every finding already collected, appends
the page's error, and counts the page in `failed_pages`. -/
theorem C5_listing_failures (env : ScrapeEnv) (max_pages fuel : Nat) (err : String) :
    (0 < max_pages →
      env.fetch_page (buildListingUrl env.base_url 1) = Except.error err →
      UKPFDScraper.scrape env max_pages (fuel + 1) =
        { findings := [], pages_scraped := 0, new_findings := 0,
          duplicate_findings := 0, failed_pages := 1,
          errors := ["Page scrape failed: " ++ buildListingUrl env.base_url 1],
          warnings := [] }) ∧
    (∀ st url, st.current_url = some url → 0 < st.pages_scraped →
      st.pages_scraped < max_pages → env.fetch_page url = Except.error err →
      ∃ tf, (scrapeLoop env max_pages (fuel + 1) st).all_findings
          = st.all_findings ++ tf ∧
        ("Page scrape failed: " ++ url) ∈ (scrapeLoop env max_pages (fuel + 1) st).errors ∧
        st.failed_pages + 1 ≤ (scrapeLoop env max_pages (fuel + 1) st).failed_pages) := by
  constructor
  · intro hmp hfetch
    have hfp : fetchAndParse env (buildListingUrl env.base_url 1)
        = Except.error err := by
      unfold fetchAndParse
      rw [hfetch]
    unfold UKPFDScraper.scrape
    simp [scrapeLoop, hfp, hmp]
  · intro st url hcu hpos hlt hfetch
    have hfp : fetchAndParse env url = Except.error err := by
      unfold fetchAndParse
      rw [hfetch]
    have hz : ¬ (st.pages_scraped = 0) := by omega
    have hstep : scrapeLoop env max_pages (fuel + 1) st
        = scrapeLoop env max_pages fuel
          { st with
            errors := st.errors ++ ["Page scrape failed: " ++ url],
            failed_pages := st.failed_pages + 1,
            current_url := some
              (buildListingUrl env.base_url (st.pages_scraped + 2)) } := by
      simp [scrapeLoop, hcu, hfp, hlt, hz]
    obtain ⟨tf, te, h1, h2, h3⟩ := scrapeLoop_extends env max_pages fuel
      { st with
        errors := st.errors ++ ["Page scrape failed: " ++ url],
        failed_pages := st.failed_pages + 1,
        current_url := some
          (buildListingUrl env.base_url (st.pages_scraped + 2)) }
    refine ⟨tf, ?_, ?_, ?_⟩
    · rw [hstep, h1]
    · rw [hstep, h2]
      simp
    · rw [hstep]
      exact h3

/-- C5 (witness): with an unreachable site, a run over the first page
aborts with one failed page and no findings; and a failure on page 2 of a
mid-run state preserves the one finding already collected. -/
theorem C5_listing_failures_witness :
    UKPFDScraper.scrape c5env 10 1 =
      { findings := [], pages_scraped := 0, new_findings := 0,
        duplicate_findings := 0, failed_pages := 1,
        errors := ["Page scrape failed: " ++ buildListingUrl c5env.base_url 1],
        warnings := [] } ∧
    ∃ tf, (scrapeLoop c5env 10 1 c5st).all_findings = c5st.all_findings ++ tf ∧
      ("Page scrape failed: " ++ "https://example.org/pfd?paged=2")
        ∈ (scrapeLoop c5env 10 1 c5st).errors ∧
      c5st.failed_pages + 1 ≤ (scrapeLoop c5env 10 1 c5st).failed_pages :=
  ⟨(C5_listing_failures c5env 10 0 "connection refused").1 (by decide) rfl,
   (C5_listing_failures c5env 10 0 "connection refused").2 c5st
     "https://example.org/pfd?paged=2" rfl (by decide) (by decide) rfl⟩

/-! ## C8: one Gateway call per stage, exact token accounting -/

/-- A completed classification stage charges exactly its one response's
total tokens. -/
theorem classifyFromResponse_tokens (r : LLMResponse) (c : ClassificationResult)
    (h : classifyFromResponse r = Except.ok c) :
    c.tokens_used = r.total_tokens := by
  unfold classifyFromResponse at h
  split at h
  · split at h
    · rw [Except.ok.injEq] at h
      subst h
      rfl
    · exact absurd h (by simp)
  · exact absurd h (by simp)

/-- A completed extraction stage charges exactly its one response's total
tokens. -/
theorem extractFromResponse_tokens (r : LLMResponse) (ex : ExtractionResult)
    (h : extractFromResponse r = Except.ok ex) :
    ex.tokens_used = r.total_tokens := by
  unfold extractFromResponse at h
  split at h
  · rw [Except.ok.injEq] at h
    subst h
    rfl
  · exact absurd h (by simp)

/-- A completed human-factors stage charges exactly its one response's
total tokens. -/
theorem hfFromResponse_tokens (r : LLMResponse) (hf : HumanFactorsResult)
    (h : hfFromResponse r = Except.ok hf) :
    hf.tokens_used = r.total_tokens := by
  unfold hfFromResponse at h
  split at h
  · rw [Except.ok.injEq] at h
    subst h
    rfl
  · exact absurd h (by simp)

/-- A completed blog stage charges exactly its one response's total
tokens. -/
theorem blogFromResponse_tokens (r : LLMResponse) (kl : List Json)
    (bp : BlogPostResult) (h : blogFromResponse r kl = Except.ok bp) :
    bp.tokens_used = r.total_tokens := by
  unfold blogFromResponse at h
  split at h
  · rw [Except.ok.injEq] at h
    subst h
    rfl
  · exact absurd h (by simp)

/-- C8: when all four stages complete over healthcare content, the pipeline
issues exactly one Gateway call per stage (four calls at indices 0-3), and
the result's total token count is exactly the sum of the four stage token
counts; when the classification short-circuits (non-healthcare), one call
is made and the total equals the classification stage's count alone. -/
theorem C8_stage_accounting (client : Nat → Except String LLMResponse)
    (finding : Finding) (r0 r1 r2 r3 : LLMResponse) (c : ClassificationResult)
    (ex : ExtractionResult) (hf : HumanFactorsResult) (kl : List Json)
    (bp : BlogPostResult)
    (hcontent : (pyOrStr finding.content_text (pyOrStr finding.content_html "")).isEmpty
      = false)
    (h0 : client 0 = Except.ok r0)
    (hc : classifyFromResponse r0 = Except.ok c) :
    (pyTruthy c.is_healthcare = true →
      client 1 = Except.ok r1 → extractFromResponse r1 = Except.ok ex →
      client 2 = Except.ok r2 → hfFromResponse r2 = Except.ok hf →
      keyLearnings hf.improvement_opportunities = Except.ok kl →
      client 3 = Except.ok r3 → blogFromResponse r3 kl = Except.ok bp →
      AnalysisPipeline.analyse client finding false =
        ({ classification := some c, extraction := some ex,
           human_factors := some hf, blog_post := some bp, errors := [] }, 4) ∧
      (AnalysisPipeline.analyse client finding false).1.total_tokens =
        r0.total_tokens + r1.total_tokens + r2.total_tokens + r3.total_tokens) ∧
    (pyTruthy c.is_healthcare = false →
      AnalysisPipeline.analyse client finding false =
        ({ classification := some c }, 1) ∧
      (AnalysisPipeline.analyse client finding false).1.total_tokens
        = r0.total_tokens) := by
  constructor
  · intro htru h1 hex h2 hhf hkl h3 hbp
    have hres : AnalysisPipeline.analyse client finding false =
        ({ classification := some c, extraction := some ex,
           human_factors := some hf, blog_post := some bp, errors := [] }, 4) := by
      simp [AnalysisPipeline.analyse, runStages234, hcontent, h0, hc, h1, hex,
        h2, hhf, hkl, h3, hbp, htru]
    refine ⟨hres, ?_⟩
    rw [hres]
    unfold AnalysisPipelineResult.total_tokens
    dsimp only
    rw [classifyFromResponse_tokens r0 c hc, extractFromResponse_tokens r1 ex hex,
      hfFromResponse_tokens r2 hf hhf, blogFromResponse_tokens r3 kl bp hbp]
  · intro hfls
    have hres : AnalysisPipeline.analyse client finding false =
        ({ classification := some c }, 1) := by
      simp [AnalysisPipeline.analyse, hcontent, h0, hc, hfls]
    refine ⟨hres, ?_⟩
    rw [hres]
    unfold AnalysisPipelineResult.total_tokens
    dsimp only
    rw [classifyFromResponse_tokens r0 c hc]
    omega

/-- C8 (witness): over a four-response healthcare run, the pipeline makes
exactly four Gateway calls and totals `150 + 500 + 1000 + 600` tokens. -/
theorem C8_stage_accounting_witness :
    AnalysisPipeline.analyse c8client c8finding false =
      ({ classification := some c8c, extraction := some c8ex,
         human_factors := some c8hf, blog_post := some c8bp, errors := [] }, 4) ∧
    (AnalysisPipeline.analyse c8client c8finding false).1.total_tokens
      = c8r0.total_tokens + c8r1.total_tokens + c8r2.total_tokens
        + c8r3.total_tokens :=
  (C8_stage_accounting c8client c8finding c8r0 c8r1 c8r2 c8r3 c8c c8ex c8hf []
      c8bp rfl rfl rfl).1 rfl rfl rfl rfl rfl rfl rfl rfl

/-! ## C2: status monotonicity across batch passes -/

/-- Keyed updates do not change the stored primary keys. -/
theorem updateClassification_ids (db : List Finding) (fid : Nat) (b : Bool)
    (conf : ℚ) :
    (updateClassification db fid b conf).map Finding.id = db.map Finding.id := by
  unfold updateClassification
  rw [List.map_map]
  apply List.map_congr_left
  intro f _
  simp only [Function.comp_apply]
  split <;> rfl

/-- Keyed status updates do not change the stored primary keys. -/
theorem setAnalysed_ids (db : List Finding) (fid : Nat) :
    (setAnalysed db fid).map Finding.id = db.map Finding.id := by
  unfold setAnalysed
  rw [List.map_map]
  apply List.map_congr_left
  intro f _
  simp only [Function.comp_apply]
  split <;> rfl

/-- Updating the classification of a NEW row of the store preserves the
pass relation to the original store (keys unique, so only that row can
match).  Stated over a sub-store `t0 ⊆ db0` for the induction. -/
theorem updateClassification_forall₂_aux (db0 : List Finding) (f : Finding)
    (hkey : ∀ o ∈ db0, o.id = f.id → o = f)
    (hnew : f.status = FindingStatus.NEW) (b : Bool) (conf : ℚ) :
    ∀ (t0 t : List Finding), t0 ⊆ db0 → List.Forall₂ RClass t0 t →
      t.map Finding.id = t0.map Finding.id →
      List.Forall₂ RClass t0 (updateClassification t f.id b conf) := by
  intro t0 t hsub hinv
  induction hinv with
  | nil =>
    intro _
    exact List.Forall₂.nil
  | cons hon htail ih =>
    rename_i o n t0' t'
    intro hids
    simp only [List.map_cons, List.cons.injEq] at hids
    have hsub' : t0' ⊆ db0 := fun x hx => hsub (List.mem_cons_of_mem _ hx)
    have hrest := ih hsub' hids.2
    unfold updateClassification
    rw [List.map_cons]
    refine List.Forall₂.cons ?_ hrest
    by_cases heq : (n.id == f.id) = true
    · rw [if_pos heq]
      have hoidf : o.id = f.id := by
        rw [← hids.1]
        exact eq_of_beq heq
      have hof : o = f := hkey o (hsub (List.mem_cons_self _ _)) hoidf
      right
      exact ⟨by rw [hof]; exact hnew, rfl⟩
    · rw [if_neg heq]
      exact hon

/-- Marking a CLASSIFIED row of the store ANALYSED preserves the
full-analysis pass relation to the original store. -/
theorem setAnalysed_forall₂_aux (db0 : List Finding) (f : Finding)
    (hkey : ∀ o ∈ db0, o.id = f.id → o = f)
    (hcls : f.status = FindingStatus.CLASSIFIED) :
    ∀ (t0 t : List Finding), t0 ⊆ db0 → List.Forall₂ RAnal t0 t →
      t.map Finding.id = t0.map Finding.id →
      List.Forall₂ RAnal t0 (setAnalysed t f.id) := by
  intro t0 t hsub hinv
  induction hinv with
  | nil =>
    intro _
    exact List.Forall₂.nil
  | cons hon htail ih =>
    rename_i o n t0' t'
    intro hids
    simp only [List.map_cons, List.cons.injEq] at hids
    have hsub' : t0' ⊆ db0 := fun x hx => hsub (List.mem_cons_of_mem _ hx)
    have hrest := ih hsub' hids.2
    unfold setAnalysed
    rw [List.map_cons]
    refine List.Forall₂.cons ?_ hrest
    by_cases heq : (n.id == f.id) = true
    · rw [if_pos heq]
      have hoidf : o.id = f.id := by
        rw [← hids.1]
        exact eq_of_beq heq
      have hof : o = f := hkey o (hsub (List.mem_cons_self _ _)) hoidf
      right
      exact ⟨by rw [hof]; exact hcls, rfl⟩
    · rw [if_neg heq]
      exact hon

/-- `updateClassification_forall₂_aux` specialised to the whole store. -/
theorem updateClassification_forall₂ (db0 db : List Finding) (f : Finding)
    (hnodup : (db0.map Finding.id).Nodup) (hmem : f ∈ db0)
    (hnew : f.status = FindingStatus.NEW)
    (hids : db.map Finding.id = db0.map Finding.id)
    (hinv : List.Forall₂ RClass db0 db) (b : Bool) (conf : ℚ) :
    List.Forall₂ RClass db0 (updateClassification db f.id b conf) :=
  updateClassification_forall₂_aux db0 f
    (fun o ho he => List.inj_on_of_nodup_map hnodup ho hmem he) hnew b conf
    db0 db (fun _ hx => hx) hinv hids

/-- `setAnalysed_forall₂_aux` specialised to the whole store. -/
theorem setAnalysed_forall₂ (db0 db : List Finding) (f : Finding)
    (hnodup : (db0.map Finding.id).Nodup) (hmem : f ∈ db0)
    (hcls : f.status = FindingStatus.CLASSIFIED)
    (hids : db.map Finding.id = db0.map Finding.id)
    (hinv : List.Forall₂ RAnal db0 db) :
    List.Forall₂ RAnal db0 (setAnalysed db f.id) :=
  setAnalysed_forall₂_aux db0 f
    (fun o ho he => List.inj_on_of_nodup_map hnodup ho hmem he) hcls
    db0 db (fun _ hx => hx) hinv hids

/-- One classification step either leaves the store alone or performs one
keyed classification update. -/
theorem classifyStep_db (oracle : Nat → Except String ClassOutcome)
    (db : List Finding) (stats : ProcessingStats) (f : Finding) :
    (classifyStep oracle (db, stats) f).1 = db ∨
    ∃ b conf, (classifyStep oracle (db, stats) f).1
      = updateClassification db f.id b conf := by
  unfold classifyStep
  rcases h : oracle f.id with e | oc
  · left
    rfl
  · right
    exact ⟨oc.is_healthcare, oc.confidence, rfl⟩

/-- One analysis step either leaves the store alone or marks the record
ANALYSED. -/
theorem analysisStep_db (oracle : Nat → AnalysisPipelineResult)
    (postOracle : Nat → Except String Unit)
    (db : List Finding) (stats : ProcessingStats) (rows : List AnalysisRow)
    (f : Finding) :
    (analysisStep oracle postOracle (db, stats, rows) f).1 = db ∨
    (analysisStep oracle postOracle (db, stats, rows) f).1 = setAnalysed db f.id := by
  unfold analysisStep
  by_cases hs : (oracle f.id).success = true
  · rcases hr : analysisRowOf f.id (oracle f.id) with e | row
    · left
      simp [hs, hr]
    · rcases hpo : (if (oracle f.id).blog_post.isSome then postOracle f.id
          else Except.ok ()) with e | u
      · left
        simp [hs, hr, hpo]
      · right
        simp [hs, hr, hpo]
  · left
    simp [hs]

/-- The classification-pass fold touches only NEW rows of the original
store, moving each to CLASSIFIED, and preserves keys. -/
theorem classifyFold_inv (oracle : Nat → Except String ClassOutcome)
    (db0 : List Finding) (hnodup : (db0.map Finding.id).Nodup) :
    ∀ sel : List Finding,
      (∀ f ∈ sel, f ∈ db0 ∧ f.status = FindingStatus.NEW) →
      ∀ (db : List Finding) (stats : ProcessingStats),
        List.Forall₂ RClass db0 db →
        db.map Finding.id = db0.map Finding.id →
        List.Forall₂ RClass db0 (sel.foldl (classifyStep oracle) (db, stats)).1 ∧
        (sel.foldl (classifyStep oracle) (db, stats)).1.map Finding.id
          = db0.map Finding.id := by
  intro sel
  induction sel with
  | nil =>
    intro _ db stats hinv hids
    exact ⟨hinv, hids⟩
  | cons f rest ih =>
    intro hsel db stats hinv hids
    rw [List.foldl_cons]
    obtain ⟨hmem, hnew⟩ := hsel f (List.mem_cons_self _ _)
    have hsel2 : ∀ g ∈ rest, g ∈ db0 ∧ g.status = FindingStatus.NEW :=
      fun g hg => hsel g (List.mem_cons_of_mem _ hg)
    rcases classifyStep_db oracle db stats f with hdb | ⟨b, conf, hdb⟩
    · have h1 : List.Forall₂ RClass db0 (classifyStep oracle (db, stats) f).1 := by
        rw [hdb]
        exact hinv
      have h2 : (classifyStep oracle (db, stats) f).1.map Finding.id
          = db0.map Finding.id := by
        rw [hdb]
        exact hids
      exact ih hsel2 _ _ h1 h2
    · have h1 : List.Forall₂ RClass db0 (classifyStep oracle (db, stats) f).1 := by
        rw [hdb]
        exact updateClassification_forall₂ db0 db f hnodup hmem hnew hids hinv b conf
      have h2 : (classifyStep oracle (db, stats) f).1.map Finding.id
          = db0.map Finding.id := by
        rw [hdb, updateClassification_ids]
        exact hids
      exact ih hsel2 _ _ h1 h2

/-- The full-analysis fold touches only CLASSIFIED rows of the original
store, moving each to ANALYSED, and preserves keys. -/
theorem analysisFold_inv (oracle : Nat → AnalysisPipelineResult)
    (postOracle : Nat → Except String Unit)
    (db0 : List Finding) (hnodup : (db0.map Finding.id).Nodup) :
    ∀ sel : List Finding,
      (∀ f ∈ sel, f ∈ db0 ∧ f.status = FindingStatus.CLASSIFIED) →
      ∀ (db : List Finding) (stats : ProcessingStats) (rows : List AnalysisRow),
        List.Forall₂ RAnal db0 db →
        db.map Finding.id = db0.map Finding.id →
        List.Forall₂ RAnal db0
          (sel.foldl (analysisStep oracle postOracle) (db, stats, rows)).1 ∧
        (sel.foldl (analysisStep oracle postOracle) (db, stats, rows)).1.map Finding.id
          = db0.map Finding.id := by
  intro sel
  induction sel with
  | nil =>
    intro _ db stats rows hinv hids
    exact ⟨hinv, hids⟩
  | cons f rest ih =>
    intro hsel db stats rows hinv hids
    rw [List.foldl_cons]
    obtain ⟨hmem, hcls⟩ := hsel f (List.mem_cons_self _ _)
    have hsel2 : ∀ g ∈ rest, g ∈ db0 ∧ g.status = FindingStatus.CLASSIFIED :=
      fun g hg => hsel g (List.mem_cons_of_mem _ hg)
    rcases analysisStep_db oracle postOracle db stats rows f with hdb | hdb
    · have h1 : List.Forall₂ RAnal db0
          (analysisStep oracle postOracle (db, stats, rows) f).1 := by
        rw [hdb]
        exact hinv
      have h2 : (analysisStep oracle postOracle (db, stats, rows) f).1.map Finding.id
          = db0.map Finding.id := by
        rw [hdb]
        exact hids
      exact ih hsel2 _ _ _ h1 h2
    · have h1 : List.Forall₂ RAnal db0
          (analysisStep oracle postOracle (db, stats, rows) f).1 := by
        rw [hdb]
        exact setAnalysed_forall₂ db0 db f hnodup hmem hcls hids hinv
      have h2 : (analysisStep oracle postOracle (db, stats, rows) f).1.map Finding.id
          = db0.map Finding.id := by
        rw [hdb, setAnalysed_ids]
        exact hids
      exact ih hsel2 _ _ _ h1 h2

/-- Selected pending-classification rows are NEW rows of the store. -/
theorem getPendingClassification_mem (db : List Finding) (limit : Option Nat) :
    ∀ f ∈ getPendingClassification db limit,
      f ∈ db ∧ f.status = FindingStatus.NEW := by
  intro f hf
  unfold getPendingClassification at hf
  have hf2 : f ∈ db.filter (fun f =>
      f.status == FindingStatus.NEW && f.is_healthcare == none) := by
    rcases limit with _ | n
    · exact hf
    · exact List.take_subset _ _ hf
  have hm := List.mem_filter.mp hf2
  refine ⟨hm.1, ?_⟩
  have hb := hm.2
  rw [Bool.and_eq_true] at hb
  exact eq_of_beq hb.1

/-- Selected pending-analysis rows are CLASSIFIED rows of the store. -/
theorem getPendingAnalysis_mem (db : List Finding) (limit : Option Nat) :
    ∀ f ∈ getPendingAnalysis db limit,
      f ∈ db ∧ f.status = FindingStatus.CLASSIFIED := by
  intro f hf
  unfold getPendingAnalysis at hf
  have hf2 : f ∈ db.filter (fun f =>
      f.status == FindingStatus.CLASSIFIED && f.is_healthcare == some true) := by
    rcases limit with _ | n
    · exact hf
    · exact List.take_subset _ _ hf
  have hm := List.mem_filter.mp hf2
  refine ⟨hm.1, ?_⟩
  have hb := hm.2
  rw [Bool.and_eq_true] at hb
  exact eq_of_beq hb.1

/-- The classification pass only moves NEW rows to CLASSIFIED and keeps
the stored keys. -/
theorem processPendingClassification_touch (oracle : Nat → Except String ClassOutcome)
    (db : List Finding) (limit : Option Nat)
    (hnodup : (db.map Finding.id).Nodup) :
    List.Forall₂ RClass db (processPendingClassification oracle db limit).1 ∧
    (processPendingClassification oracle db limit).1.map Finding.id
      = db.map Finding.id := by
  unfold processPendingClassification
  exact classifyFold_inv oracle db hnodup _ (getPendingClassification_mem db limit)
    db {} (List.forall₂_same.mpr fun x _ => Or.inl rfl) rfl

/-- The full-analysis pass only moves CLASSIFIED rows to ANALYSED and
keeps the stored keys. -/
theorem processPendingAnalysis_touch (oracle : Nat → AnalysisPipelineResult)
    (postOracle : Nat → Except String Unit)
    (db : List Finding) (limit : Option Nat)
    (hnodup : (db.map Finding.id).Nodup) :
    List.Forall₂ RAnal db (processPendingAnalysis oracle postOracle db limit).1 ∧
    (processPendingAnalysis oracle postOracle db limit).1.map Finding.id
      = db.map Finding.id := by
  unfold processPendingAnalysis
  exact analysisFold_inv oracle postOracle db hnodup _ (getPendingAnalysis_mem db limit)
    db {} [] (List.forall₂_same.mpr fun x _ => Or.inl rfl) rfl

/-- A classification-pass row change never moves the lifecycle backward. -/
theorem RClass_rank (o n : Finding) (h : RClass o n) : RankLe o n := by
  rcases h with rfl | ⟨h1, h2⟩
  · exact Nat.le_refl _
  · unfold RankLe
    rw [h1, h2]
    decide

/-- A full-analysis-pass row change never moves the lifecycle backward. -/
theorem RAnal_rank (o n : Finding) (h : RAnal o n) : RankLe o n := by
  rcases h with rfl | ⟨h1, h2⟩
  · exact Nat.le_refl _
  · unfold RankLe
    rw [h1, h2]
    decide

/-- Row-wise lifecycle ordering composes across intermediate stores. -/
theorem forall₂_rankLe_trans (l1 l2 l3 : List Finding)
    (h12 : List.Forall₂ RankLe l1 l2) (h23 : List.Forall₂ RankLe l2 l3) :
    List.Forall₂ RankLe l1 l3 := by
  induction h12 generalizing l3 with
  | nil =>
    cases h23
    exact List.Forall₂.nil
  | cons hab htail ih =>
    cases h23 with
    | cons hbc htail2 =>
      exact List.Forall₂.cons (Nat.le_trans hab hbc) (ih _ htail2)

/-- Across any sequence of batch passes, every row's lifecycle rank is
monotone and the stored keys are unchanged. -/
theorem runPasses_rank (ps : List PassSpec) :
    ∀ db : List Finding, (db.map Finding.id).Nodup →
      List.Forall₂ RankLe db (runPasses db ps) ∧
      (runPasses db ps).map Finding.id = db.map Finding.id := by
  induction ps with
  | nil =>
    intro db _
    exact ⟨List.forall₂_same.mpr fun x _ => Nat.le_refl _, rfl⟩
  | cons p rest ih =>
    intro db hnodup
    have hone : List.Forall₂ RankLe db (applyPass db p) ∧
        (applyPass db p).map Finding.id = db.map Finding.id := by
      cases p with
      | classification oracle limit =>
        obtain ⟨h1, h2⟩ := processPendingClassification_touch oracle db limit hnodup
        exact ⟨h1.imp RClass_rank, h2⟩
      | analysis oracle postOracle limit =>
        obtain ⟨h1, h2⟩ := processPendingAnalysis_touch oracle postOracle db limit hnodup
        exact ⟨h1.imp RAnal_rank, h2⟩
    have hnodup2 : ((applyPass db p).map Finding.id).Nodup := by
      rw [hone.2]
      exact hnodup
    obtain ⟨h3, h4⟩ := ih (applyPass db p) hnodup2
    refine ⟨?_, ?_⟩
    · exact forall₂_rankLe_trans _ _ _ hone.1 h3
    · rw [runPasses, List.foldl_cons, ← runPasses, h4, hone.2]

/-- C2: with unique primary keys, a Finding's status is monotone along the
lifecycle under any sequence of classification and full-analysis passes —
the classification pass only moves NEW rows to CLASSIFIED, and the
full-analysis pass only moves CLASSIFIED rows to ANALYSED; no pass ever
moves a row backward. -/
theorem C2_status_monotonic (db : List Finding)
    (hnodup : (db.map Finding.id).Nodup) :
    (∀ ps : List PassSpec, List.Forall₂ RankLe db (runPasses db ps)) ∧
    (∀ (oracle : Nat → Except String ClassOutcome) (limit : Option Nat),
      List.Forall₂ RClass db (processPendingClassification oracle db limit).1) ∧
    (∀ (oracle : Nat → AnalysisPipelineResult)
        (postOracle : Nat → Except String Unit) (limit : Option Nat),
      List.Forall₂ RAnal db (processPendingAnalysis oracle postOracle db limit).1) :=
  ⟨fun ps => (runPasses_rank ps db hnodup).1,
   fun oracle limit => (processPendingClassification_touch oracle db limit hnodup).1,
   fun oracle postOracle limit =>
     (processPendingAnalysis_touch oracle postOracle db limit hnodup).1⟩

/-- C2 (witness): the monotonicity and touch relations at a concrete
two-row store under a classification pass followed by an analysis pass. -/
theorem C2_status_monotonic_witness :
    List.Forall₂ RankLe c2db (runPasses c2db c2passes) ∧
    List.Forall₂ RClass c2db
      (processPendingClassification
        (fun _ => Except.ok { is_healthcare := true, confidence := 1 }) c2db none).1 :=
  ⟨(C2_status_monotonic c2db (by decide)).1 c2passes,
   (C2_status_monotonic c2db (by decide)).2.1
     (fun _ => Except.ok { is_healthcare := true, confidence := 1 }) none⟩

/-! ## C7: every run yields an accounted summary -/

/-- Each classification step processes one record, and charges it to
exactly one of the classified count or the error list. -/
theorem classifyStep_stats (oracle : Nat → Except String ClassOutcome)
    (db : List Finding) (stats : ProcessingStats) (f : Finding) :
    (classifyStep oracle (db, stats) f).2.findings_processed
        = stats.findings_processed + 1 ∧
    (classifyStep oracle (db, stats) f).2.findings_classified
        + (classifyStep oracle (db, stats) f).2.errors.length
      = stats.findings_classified + stats.errors.length + 1 := by
  rcases h : oracle f.id with e | oc <;> simp [classifyStep, h] <;> omega

/-- Each analysis step processes one record and charges it to the
created-analyses count, the error list, or — on the half-failure path
where the post-creation block raises after the `Analysis` row was
created — both at once: the combined count grows by one or two, never by
zero, so no record is dropped unaccounted. -/
theorem analysisStep_stats (oracle : Nat → AnalysisPipelineResult)
    (postOracle : Nat → Except String Unit)
    (db : List Finding) (stats : ProcessingStats) (rows : List AnalysisRow)
    (f : Finding) :
    (analysisStep oracle postOracle (db, stats, rows) f).2.1.findings_processed
        = stats.findings_processed + 1 ∧
    stats.analyses_created + stats.errors.length + 1
      ≤ (analysisStep oracle postOracle (db, stats, rows) f).2.1.analyses_created
        + (analysisStep oracle postOracle (db, stats, rows) f).2.1.errors.length ∧
    (analysisStep oracle postOracle (db, stats, rows) f).2.1.analyses_created
        + (analysisStep oracle postOracle (db, stats, rows) f).2.1.errors.length
      ≤ stats.analyses_created + stats.errors.length + 2 := by
  by_cases hs : (oracle f.id).success = true
  · rcases hr : analysisRowOf f.id (oracle f.id) with e | row
    · simp [analysisStep, hs, hr] <;> omega
    · rcases hpo : (if (oracle f.id).blog_post.isSome then postOracle f.id
          else Except.ok ()) with e | u <;>
        simp [analysisStep, hs, hr, hpo] <;> omega
  · simp [analysisStep, hs] <;> omega

/-- Classification-pass accounting over a whole selected batch. -/
theorem classifyFold_stats (oracle : Nat → Except String ClassOutcome)
    (sel : List Finding) :
    ∀ (db : List Finding) (stats : ProcessingStats),
      (sel.foldl (classifyStep oracle) (db, stats)).2.findings_processed
        = stats.findings_processed + sel.length ∧
      (sel.foldl (classifyStep oracle) (db, stats)).2.findings_classified
          + (sel.foldl (classifyStep oracle) (db, stats)).2.errors.length
        = stats.findings_classified + stats.errors.length + sel.length := by
  induction sel with
  | nil =>
    intro db stats
    exact ⟨rfl, rfl⟩
  | cons f rest ih =>
    intro db stats
    rw [List.foldl_cons]
    obtain ⟨hp, hc⟩ := classifyStep_stats oracle db stats f
    obtain ⟨hp2, hc2⟩ := ih (classifyStep oracle (db, stats) f).1
      (classifyStep oracle (db, stats) f).2
    constructor
    · rw [hp2, hp, List.length_cons]
      omega
    · rw [hc2, hc, List.length_cons]
      omega

/-- Analysis-pass accounting over a whole selected batch: every selected
record is processed and lands in the created count, the error list, or
(post-creation failure) both. -/
theorem analysisFold_stats (oracle : Nat → AnalysisPipelineResult)
    (postOracle : Nat → Except String Unit)
    (sel : List Finding) :
    ∀ (db : List Finding) (stats : ProcessingStats) (rows : List AnalysisRow),
      (sel.foldl (analysisStep oracle postOracle)
          (db, stats, rows)).2.1.findings_processed
        = stats.findings_processed + sel.length ∧
      stats.analyses_created + stats.errors.length + sel.length
        ≤ (sel.foldl (analysisStep oracle postOracle)
              (db, stats, rows)).2.1.analyses_created
          + (sel.foldl (analysisStep oracle postOracle)
              (db, stats, rows)).2.1.errors.length ∧
      (sel.foldl (analysisStep oracle postOracle)
            (db, stats, rows)).2.1.analyses_created
          + (sel.foldl (analysisStep oracle postOracle)
              (db, stats, rows)).2.1.errors.length
        ≤ stats.analyses_created + stats.errors.length + 2 * sel.length := by
  induction sel with
  | nil =>
    intro db stats rows
    refine ⟨rfl, ?_, ?_⟩ <;> simp
  | cons f rest ih =>
    intro db stats rows
    rw [List.foldl_cons]
    obtain ⟨hp, hlo, hhi⟩ := analysisStep_stats oracle postOracle db stats rows f
    rcases hstep : analysisStep oracle postOracle (db, stats, rows) f with
      ⟨db2, stats2, rows2⟩
    rw [hstep] at hp hlo hhi
    dsimp only at hp hlo hhi
    obtain ⟨hp2, hlo2, hhi2⟩ := ih db2 stats2 rows2
    simp only [List.length_cons]
    refine ⟨?_, ?_, ?_⟩ <;> omega

/-- C7 (counterexample): the claim says no scrape run terminates without a
summary object, yet `_run_scraper` returns `None` when the source code is
unknown (and likewise for an inactive source, an unregistered scraper, or
a raised scrape error). -/
theorem C7_summary_counterexample :
    ¬ ∀ (source : Option SourceRec) (registered : Bool)
        (outcome : Except String ScrapeResult) (db : List Finding) (nid : Nat),
        (ScraperScheduler.runScraper source registered outcome db nid).1 ≠ none := by
  intro h
  exact h none true (Except.ok {}) [] 0 rfl

/-- C7 (amended): a scrape run returns the scraper's summary exactly when
the source resolves, is active and registered and the scrape succeeds, and
returns `None` otherwise; in the save step every candidate is counted as
new or duplicate; the classification pass returns stats in which every
selected record is counted in exactly one of the classified count or the
error list; and the analysis pass returns stats in which every selected
record is counted in the created-analyses count, the error list, or both —
both, because `analyses_created` is incremented before the fallible
post-creation block, whose failure also appends an error — so the combined
count is between the selected count and twice it, and in every pass
`findings_processed` equals the selected count. -/
theorem C7_summaries (src : SourceRec) (outcome : Except String ScrapeResult)
    (db : List Finding) (nid : Nat)
    (coracle : Nat → Except String ClassOutcome)
    (aoracle : Nat → AnalysisPipelineResult)
    (postOracle : Nat → Except String Unit) (limit : Option Nat) :
    (src.is_active = true → ∀ result, outcome = Except.ok result →
      (ScraperScheduler.runScraper (some src) true outcome db nid).1
        = some result) ∧
    (∀ e, outcome = Except.error e →
      (ScraperScheduler.runScraper (some src) true outcome db nid).1 = none) ∧
    (src.is_active = false →
      (ScraperScheduler.runScraper (some src) true outcome db nid).1 = none) ∧
    (∀ cs, (saveScrapeResults db nid src.id cs).newCount
        + (saveScrapeResults db nid src.id cs).dupCount = cs.length) ∧
    ((processPendingClassification coracle db limit).2.findings_processed
        = (getPendingClassification db limit).length ∧
      (processPendingClassification coracle db limit).2.findings_classified
          + (processPendingClassification coracle db limit).2.errors.length
        = (getPendingClassification db limit).length) ∧
    ((processPendingAnalysis aoracle postOracle db limit).2.1.findings_processed
        = (getPendingAnalysis db limit).length ∧
      (getPendingAnalysis db limit).length
          ≤ (processPendingAnalysis aoracle postOracle db limit).2.1.analyses_created
            + (processPendingAnalysis aoracle postOracle db limit).2.1.errors.length ∧
      (processPendingAnalysis aoracle postOracle db limit).2.1.analyses_created
            + (processPendingAnalysis aoracle postOracle db limit).2.1.errors.length
          ≤ 2 * (getPendingAnalysis db limit).length) := by
  refine ⟨?_, ?_, ?_, ?_, ?_, ?_⟩
  · intro hact result hok
    unfold ScraperScheduler.runScraper
    rw [hok]
    simp [hact]
  · intro e herr
    unfold ScraperScheduler.runScraper
    rw [herr]
    by_cases hact : src.is_active = false <;> simp [hact]
  · intro hact
    unfold ScraperScheduler.runScraper
    simp [hact]
  · intro cs
    exact (C3_idempotent_ingestion db nid src.id cs).2.1
  · unfold processPendingClassification
    obtain ⟨h1, h2⟩ := classifyFold_stats coracle (getPendingClassification db limit)
      db {}
    exact ⟨by rw [h1]; simp, by rw [h2]; simp⟩
  · unfold processPendingAnalysis
    obtain ⟨h1, h2, h3⟩ := analysisFold_stats aoracle postOracle
      (getPendingAnalysis db limit) db {} []
    have hz1 : ({} : ProcessingStats).findings_processed = 0 := rfl
    have hz2 : ({} : ProcessingStats).analyses_created = 0 := rfl
    have hz3 : ({} : ProcessingStats).errors.length = 0 := rfl
    refine ⟨?_, ?_, ?_⟩ <;> omega

/-- C7 (witness): an active registered source with a successful scrape
yields that summary; classification-pass accounting at the concrete
two-row store under a failing LLM; analysis-pass accounting at the same
store when the pipeline succeeds but post creation raises (the record is
counted in both `analyses_created` and the error list). -/
theorem C7_summaries_witness :
    (ScraperScheduler.runScraper (some c7src) true (Except.ok {}) [] 0).1
      = some {} ∧
    (processPendingClassification (fun _ => Except.error "llm down") c2db
        none).2.findings_classified
      + (processPendingClassification (fun _ => Except.error "llm down") c2db
        none).2.errors.length
      = (getPendingClassification c2db none).length ∧
    (getPendingAnalysis c2db none).length
      ≤ (processPendingAnalysis (fun _ => c10res)
            (fun _ => Except.error "slugify: TypeError") c2db
            none).2.1.analyses_created
        + (processPendingAnalysis (fun _ => c10res)
            (fun _ => Except.error "slugify: TypeError") c2db
            none).2.1.errors.length :=
  ⟨(C7_summaries c7src (Except.ok {}) [] 0 (fun _ => Except.error "llm down")
      (fun _ => c10res) (fun _ => Except.error "slugify: TypeError") none).1 rfl {} rfl,
   (C7_summaries c7src (Except.ok {}) c2db 0 (fun _ => Except.error "llm down")
      (fun _ => c10res) (fun _ => Except.error "slugify: TypeError")
      none).2.2.2.2.1.2,
   (C7_summaries c7src (Except.ok {}) c2db 0 (fun _ => Except.error "llm down")
      (fun _ => c10res) (fun _ => Except.error "slugify: TypeError")
      none).2.2.2.2.2.2.1⟩

end Coroner
